import Mathlib

/-!
# Ferret runtime values, static HTML elements and standard-library wrappers

A shallow embedding of

* `pkg/runtime/values/boolean.go`        (Boolean value kind),
* `pkg/runtime/values/helpers_test.go`   (CustomValue and its path accessors),
* `pkg/drivers/http/element.go`          (static HTMLElement over a goquery selection),
* `pkg/stdlib/math/max.go`               (MAX),
* `pkg/stdlib/html/wait_class.go`        (WAIT_CLASS),
* `pkg/stdlib/html/inner_text_all.go`    (INNER_TEXT_ALL),

followed by the properties established about them.

Conventions.  Go reference types (`*CustomValue`, `*values.Array`, `*HTMLElement`, dynamic
documents and elements) are addresses into an explicit `Store`; code that mutates them
returns the new store.  Go `int64` and `float64` numbers are exact integers and rationals.
A Go string is the sequence of its code points (valid UTF-8).  A Go `(value, error)` result
is a pair whose second component is `Option GoError`; where a call can panic (an index out of
range, a failed type assertion) the whole result is an `Option`, `none` being the panic.
What the sources import from packages that are not at hand (`core`, `types`, `drivers`,
goquery, `html.Render`, the Unicode tables) is either a parameter or a definition marked
"Modelled from the spec".
-/

namespace Ferret

/-! ## core: types and errors -/

/-- A `core.Type`: the identity of a value kind, carried by its name. -/
structure CoreType where
  Name : String
  deriving DecidableEq, Repr

/-- Go `error` values built by the `core` package: sentinel errors, `core.Error(err, msg)`
wrapping and `core.Errors(a, b)` joining.  `ErrNotDynamic` is the sentinel of the `html`
package; `External n` stands for an error produced outside these packages (the HTML renderer,
a browser backend). -/
inductive GoError where
  | ErrMissedArgument
  | ErrInvalidArgumentNumber
  | ErrInvalidType
  | ErrNotDynamic
  | External (code : ℕ)
  | Error (err : GoError) (msg : String)
  | Errors (a b : GoError)
  deriving DecidableEq, Repr

namespace types

/-- Modelled from the spec: kind identity of None (the `types` package is not among the
sources; the spec gives each kind "a type identity distinct per kind"). -/
def None : CoreType := ⟨"none"⟩
/-- Modelled from the spec: kind identity of Boolean. -/
def Boolean : CoreType := ⟨"boolean"⟩
/-- Modelled from the spec: kind identity of Int. -/
def Int : CoreType := ⟨"int"⟩
/-- Modelled from the spec: kind identity of Float. -/
def Float : CoreType := ⟨"float"⟩
/-- Modelled from the spec: kind identity of String. -/
def String : CoreType := ⟨"string"⟩
/-- Modelled from the spec: kind identity of Array. -/
def Array : CoreType := ⟨"array"⟩
/-- Modelled from the spec: kind identity of Object. -/
def Object : CoreType := ⟨"object"⟩
/-- Modelled from the spec: kind identity of DateTime. -/
def DateTime : CoreType := ⟨"date_time"⟩

end types

namespace drivers

/-- Modelled from the spec: kind identity of an Element node (declared in the `drivers`
package, which is not among the sources). -/
def HTMLElementType : CoreType := ⟨"HTMLElement"⟩
/-- Modelled from the spec: kind identity of a Document node. -/
def HTMLDocumentType : CoreType := ⟨"HTMLDocument"⟩

end drivers

/-! ## Values -/

/-- A `core.Value`: the kinds of the spec's value model (the static and the dynamic backend
of a Node apart), and the `*CustomValue` of helpers_test.go.  Scalars are held by value,
reference kinds by address. -/
inductive Value where
  | None
  | Boolean (b : Bool)
  | Int (i : ℤ)
  | Float (f : ℚ)
  | String (s : String)
  | DateTime (instant : ℤ)
  | Array (ref : ℕ)
  | Object (ref : ℕ)
  | Custom (ref : ℕ)
  | HTMLElement (ref : ℕ)
  | HTMLDocument (ref : ℕ)
  | DHTMLDocument (ref : ℕ)
  | DHTMLNode (ref : ℕ)
  deriving DecidableEq, Repr

/-- A Go `interface{}` as the parsing helpers and `Unwrap` see it: a native boolean, a
native string, or a value of some other host type. -/
inductive HostValue where
  | bool (b : Bool)
  | string (s : String)
  | other (tag : ℕ)
  deriving DecidableEq, Repr

/-! ## The store of reference objects -/

/-- The node kinds of `golang.org/x/net/html`. -/
inductive NodeType where
  | ErrorNode | TextNode | DocumentNode | ElementNode | CommentNode | DoctypeNode
  deriving DecidableEq, Repr

/-- An `html.Node` with its subtree; `id` stands for the node's address (its identity). -/
inductive HtmlNode where
  | mk (id : ℕ) (Typ : NodeType) (Data : String) (Attr : List (String × String))
      (children : List HtmlNode)

namespace HtmlNode

/-- Address of the node. -/
def id : HtmlNode → ℕ
  | .mk i _ _ _ _ => i
/-- Field `Type`. -/
def Typ : HtmlNode → NodeType
  | .mk _ t _ _ _ => t
/-- Field `Data`. -/
def Data : HtmlNode → String
  | .mk _ _ d _ _ => d
/-- Field `Attr`. -/
def Attr : HtmlNode → List (String × String)
  | .mk _ _ _ a _ => a
/-- The chain `FirstChild`, `NextSibling`, ... -/
def children : HtmlNode → List HtmlNode
  | .mk _ _ _ _ cs => cs

end HtmlNode

/-- A `goquery.Selection` that is not nil: the matched nodes. -/
structure Selection where
  Nodes : List HtmlNode

/-- The struct `HTMLElement` of element.go.  `selection` is never nil in an element built by
`NewHTMLElement`; the two caches, a `*values.Object` and a `*values.Array`, are nil (`none`)
until computed and hold the address of the cached object afterwards. -/
structure HTMLElement where
  selection : Selection
  attrs : Option ℕ
  children : Option ℕ

/-- The struct `CustomValue` of helpers_test.go.  A Go map is a reference: `properties` is the
address of the map object in the store. -/
structure CustomValue where
  type_ : CoreType
  properties : ℕ

/-- What the addresses held by values refer to. -/
structure Store where
  /-- `*CustomValue` objects. -/
  customs : ℕ → CustomValue
  /-- Map objects `map[core.Value]core.Value`: the value stored under each key, if any. -/
  maps : ℕ → Value → Option Value
  /-- `*values.Array` objects: their items. -/
  arrays : ℕ → List Value
  /-- `*values.Object` objects: their properties, in insertion order. -/
  objects : ℕ → List (String × Value)
  /-- `*HTMLElement` objects (static backend). -/
  elements : ℕ → HTMLElement
  /-- Inner HTML that a dynamic element reports. -/
  dynamicInnerHTML : ℕ → String
  /-- The address the next allocated object gets. -/
  next : ℕ

/-- Method `Type()` of each value kind. -/
def Value.Type (σ : Store) : Value → CoreType
  | .None => types.None
  | .Boolean _ => types.Boolean
  | .Int _ => types.Int
  | .Float _ => types.Float
  | .String _ => types.String
  | .DateTime _ => types.DateTime
  | .Array _ => types.Array
  | .Object _ => types.Object
  | .Custom r => (σ.customs r).type_
  | .HTMLElement _ => drivers.HTMLElementType
  | .HTMLDocument _ => drivers.HTMLDocumentType
  | .DHTMLDocument _ => drivers.HTMLDocumentType
  | .DHTMLNode _ => drivers.HTMLElementType

/-- Method `Unwrap()` as far as the type assertions of the sources look at it. -/
def Value.Unwrap : Value → HostValue
  | .Boolean b => .bool b
  | .String s => .string s
  | .None => .other 0
  | .Int _ => .other 1
  | .Float _ => .other 2
  | .Array _ => .other 3
  | .Custom _ => .other 4
  | .HTMLElement _ => .other 5
  | .HTMLDocument _ => .other 6
  | .DHTMLDocument _ => .other 7
  | .DHTMLNode _ => .other 8
  | .DateTime _ => .other 9
  | .Object _ => .other 10

/-- Modelled from the spec: the fixed kind-rank table behind cross-kind comparison,
"None < Boolean < Int/Float < String < Array < Object < Node < DateTime" (the table itself,
in the `types` and `drivers` packages, is not among the sources).  Kinds outside the table
rank last. -/
def kindRank (t : CoreType) : ℕ :=
  if t = types.None then 0
  else if t = types.Boolean then 1
  else if t = types.Int ∨ t = types.Float then 2
  else if t = types.String then 3
  else if t = types.Array then 4
  else if t = types.Object then 5
  else if t = drivers.HTMLElementType ∨ t = drivers.HTMLDocumentType then 6
  else if t = types.DateTime then 7
  else 8

/-- Modelled from the spec: `types.Compare`, ordering two kinds by the kind-rank table. -/
def types.Compare (first second : CoreType) : ℤ :=
  if kindRank first = kindRank second then 0
  else if kindRank first < kindRank second then -1
  else 1

/-- Modelled from the spec: `drivers.Compare`, the same cross-kind ordering seen from a node. -/
def drivers.Compare (first second : CoreType) : ℤ :=
  types.Compare first second

/-! ## hash/fnv -/

/-- UTF-8 encoding of one code point, as a list of bytes. -/
def utf8EncodeRune (n : ℕ) : List ℕ :=
  if n < 0x80 then [n]
  else if n < 0x800 then [0xC0 + n / 64, 0x80 + n % 64]
  else if n < 0x10000 then [0xE0 + n / 4096, 0x80 + (n / 64) % 64, 0x80 + n % 64]
  else [0xF0 + n / 262144, 0x80 + (n / 4096) % 64, 0x80 + (n / 64) % 64, 0x80 + n % 64]

/-- Go `[]byte(s)`. -/
def stringBytes (s : String) : List ℕ :=
  s.data.flatMap fun c => utf8EncodeRune c.toNat

/-- `fnv.New64a()`: the 64-bit FNV offset basis. -/
def fnvNew64a : ℕ := 14695981039346656037

/-- The method `Write` of the 64-bit FNV-1a hasher: xor each byte in, multiply by the FNV prime,
keep 64 bits. -/
def fnvWrite (h : ℕ) (bs : List ℕ) : ℕ :=
  bs.foldl (fun h b => ((h ^^^ b) * 1099511628211) % 2 ^ 64) h

namespace values

/-! ## values.Boolean (boolean.go) -/

/-- Go `type Boolean bool`. -/
abbrev Boolean := Bool

/-- `var False = Boolean(false)`. -/
def False : Boolean := false
/-- `var True = Boolean(true)`. -/
def True : Boolean := true

/-- `NewBoolean`. -/
def NewBoolean (input : Bool) : Boolean := input

/-- `unicode.ToLower` on one rune: the ASCII range is mapped as in the Go source, runes from
0x80 on go through the Unicode case tables, which are the parameter `tbl`. -/
def unicodeToLower (tbl : Char → Char) (r : Char) : Char :=
  if r.toNat < 128 then
    if 65 ≤ r.toNat ∧ r.toNat ≤ 90 then Char.ofNat (r.toNat + 32) else r
  else tbl r

/-- `strings.ToLower`: every rune of the string is mapped by `unicode.ToLower`. -/
def stringsToLower (tbl : Char → Char) (s : String) : String :=
  ⟨s.data.map (unicodeToLower tbl)⟩

/-- `ParseBoolean`. -/
def ParseBoolean (tbl : Char → Char) (input : HostValue) : Boolean × Option GoError :=
  match input with
  | .bool b => if b then (True, none) else (False, none)
  | .string s =>
    let s := stringsToLower tbl s
    if s = "true" then (True, none)
    else if s = "false" then (False, none)
    else (False, some (GoError.Error .ErrInvalidType "expected 'bool'"))
  | .other _ => (False, some (GoError.Error .ErrInvalidType "expected 'bool'"))

/-- The letter `c` with an ASCII capital replaced by its small letter; every other character
is kept.  Used to say "equal ignoring case". -/
def asciiLower (c : Char) : Char :=
  if 65 ≤ c.toNat ∧ c.toNat ≤ 90 then Char.ofNat (c.toNat + 32) else c

/-- After the spec's words ("the case-insensitive strings"): the string `s` equals the string
`t` ignoring (ASCII) letter case. -/
def EqualsIgnoringCase (s t : String) : Prop :=
  s.data.map asciiLower = t.data.map asciiLower

instance (s t : String) : Decidable (EqualsIgnoringCase s t) := by
  unfold EqualsIgnoringCase; infer_instance

/-- The letters of the two accepted words. -/
def booleanWordLetters : List Char := ['t', 'r', 'u', 'e', 'f', 'a', 'l', 's']

/-- `Boolean.String`. -/
def Boolean.String (t : Boolean) : String :=
  if t then "true" else "false"

/-- `Boolean.Type`. -/
def Boolean.Type (_t : Boolean) : CoreType := types.Boolean

/-- `Boolean.Unwrap`. -/
def Boolean.Unwrap (t : Boolean) : HostValue := .bool t

/-- `Boolean.Compare`.  The result is `none` when the type assertion `.(bool)` fails (a
value that reports the Boolean kind without holding a native boolean). -/
def Boolean.Compare (σ : Store) (t : Boolean) (other : Value) : Option ℤ :=
  let raw : Bool := t
  if types.Boolean = other.Type σ then
    match other.Unwrap with
    | .bool i =>
      if raw = i then some 0
      else if raw = false ∧ i = true then some (-1)
      else some 1
    | _ => none
  else some (types.Compare types.Boolean (other.Type σ))

/-- `Boolean.Hash`. -/
def Boolean.Hash (t : Boolean) : ℕ :=
  let h := fnvNew64a
  let h := fnvWrite h (stringBytes (Boolean.Type t).Name)
  let h := fnvWrite h (stringBytes ":")
  let h := fnvWrite h (stringBytes (Boolean.String t))
  h

/-- `Boolean.Copy`. -/
def Boolean.Copy (t : Boolean) : Value := .Boolean t

/-- Modelled from the spec: `String.Compare` of the String kind (string.go is not among the
sources): "String: lexicographic by code point" within the kind, the kind-rank table across
kinds. -/
def String.Compare (σ : Store) (t : String) (other : Value) : Option ℤ :=
  if types.String = other.Type σ then
    match other.Unwrap with
    | .string s => if t = s then some 0 else if t < s then some (-1) else some 1
    | _ => none
  else some (types.Compare types.String (other.Type σ))

end values

/-! ## core: argument validation -/

namespace core

/-- Modelled from the spec: `core.ValidateArgs`, "validate argument count against a fixed
min/max" (the function is not among the sources); the error is `InvalidArgumentCount`. -/
def ValidateArgs (args : List Value) (minimum maximum : ℕ) : Option GoError :=
  if args.length < minimum ∨ args.length > maximum then some .ErrInvalidArgumentNumber
  else none

/-- Modelled from the spec: `core.ValidateType`, "validate each argument's kind against an
allow-list" (the function is not among the sources); the error is `InvalidType`. -/
def ValidateType (σ : Store) (value : Value) (required : List CoreType) : Option GoError :=
  if value.Type σ ∈ required then none else some .ErrInvalidType

end core

/-- The type assertion `.(values.String)`; `none` when it fails. -/
def assertString : Value → Option String
  | .String s => some s
  | _ => none

/-- The type assertion `.(values.Int)`; `none` when it fails. -/
def assertInt : Value → Option ℤ
  | .Int i => some i
  | _ => none

/-- The type assertion `.(*values.Array)`; `none` when it fails. -/
def assertArray : Value → Option ℕ
  | .Array r => some r
  | _ => none

/-! ## goquery over the node tree, and the static element (element.go) -/

/-- The parts of the HTML libraries taken as given: `matcher selector n` says whether the
compiled selector matches the node `n` (cascadia), `render n` is what `html.Render` writes for
the node `n`, or its error. -/
structure HtmlLib where
  matcher : String → HtmlNode → Bool
  render : HtmlNode → Except GoError String

/-- The loop of `Selection.Html` over the chain of children, `buf` being the buffer so far: the
first rendering error ends it, and the result string is then still empty. -/
def renderChildren (L : HtmlLib) : List HtmlNode → String → String × Option GoError
  | [], buf => (buf, none)
  | c :: cs, buf =>
    match L.render c with
    | .error e => ("", some e)
    | .ok str => renderChildren L cs (buf ++ str)

/-- The goquery method `Selection.Html`: the rendered children of the first node of the
selection, the empty string for an empty selection. -/
def Selection.Html (L : HtmlLib) (s : Selection) : String × Option GoError :=
  match s.Nodes with
  | [] => ("", none)
  | n :: _ => renderChildren L n.children ""

mutual

/-- The cascadia function `MatchAll`: the node, if it matches, then the matching nodes below
it, in document order. -/
def matchAll (m : HtmlNode → Bool) : HtmlNode → List HtmlNode
  | .mk i t d a cs =>
    (if m (.mk i t d a cs) then [.mk i t d a cs] else []) ++ matchAllList m cs

/-- `matchAll` along a chain of siblings. -/
def matchAllList (m : HtmlNode → Bool) : List HtmlNode → List HtmlNode
  | [] => []
  | c :: cs => matchAll m c ++ matchAllList m cs

end

/-- The goquery function `appendWithoutDuplicates`: nodes already present (same address)
are not appended again. -/
def appendWithoutDuplicates (target : List HtmlNode) : List HtmlNode → List HtmlNode
  | [] => target
  | n :: ns =>
    if target.any (fun x => x.id = n.id) then appendWithoutDuplicates target ns
    else appendWithoutDuplicates (target ++ [n]) ns

/-- The goquery function `findWithMatcher`: for each node of the set, the matches within its
element children and below, without duplicates. -/
def findWithMatcher (nodes : List HtmlNode) (m : HtmlNode → Bool) : List HtmlNode :=
  nodes.foldl
    (fun result n =>
      appendWithoutDuplicates result
        ((n.children.filter fun c => c.Typ = NodeType.ElementNode).flatMap (matchAll m)))
    []

/-- The goquery method `Selection.Find`.  Its result is a `*Selection`, here an
`Option Selection`; it is a new selection in every case, never nil. -/
def Selection.Find (L : HtmlLib) (s : Selection) (selector : String) : Option Selection :=
  some ⟨findWithMatcher s.Nodes (L.matcher selector)⟩

namespace http

/-- `NewHTMLElement`; the argument is a `*goquery.Selection`, nil being `none`. -/
def NewHTMLElement (node : Option Selection) : Option HTMLElement × Option GoError :=
  match node with
  | none => (none, some (GoError.Error .ErrMissedArgument "element selection"))
  | some sel => (some ⟨sel, none, none⟩, none)

end http

/-- Allocation of a new `*HTMLElement`: the value holding its address, and the store with the
object in it. -/
def Store.newElement (σ : Store) (el : HTMLElement) : Value × Store :=
  (.HTMLElement σ.next,
    { σ with elements := Function.update σ.elements σ.next el, next := σ.next + 1 })

/-- `HTMLElement.Type`. -/
def HTMLElement.Type (_el : HTMLElement) : CoreType := drivers.HTMLElementType

namespace HTMLElement

/-- `HTMLElement.InnerHTML`. -/
def InnerHTML (L : HtmlLib) (el : HTMLElement) : String :=
  match el.selection.Html L with
  | (_, some _) => ""
  | (h, none) => h

/-- The call `other.(drivers.HTMLNode).InnerHTML()` in `Compare`: the inner HTML of a static or
dynamic element; `none` when the type assertion fails. -/
def otherInnerHTML (L : HtmlLib) (σ : Store) : Value → Option String
  | .HTMLElement r => some (InnerHTML L (σ.elements r))
  | .DHTMLNode r => some (σ.dynamicInnerHTML r)
  | _ => none

/-- `HTMLElement.Compare`; `none` when a type assertion fails. -/
def Compare (L : HtmlLib) (σ : Store) (el : HTMLElement) (other : Value) : Option ℤ :=
  if other.Type σ = drivers.HTMLElementType then
    match otherInnerHTML L σ other with
    | some h => values.String.Compare σ (InnerHTML L el) (.String h)
    | none => none
  else some (drivers.Compare el.Type (other.Type σ))

/-- `HTMLElement.Hash`. -/
def Hash (L : HtmlLib) (el : HTMLElement) : ℕ :=
  match el.selection.Html L with
  | (_, some _) => 0
  | (str, none) =>
    let h := fnvNew64a
    let h := fnvWrite h (stringBytes el.Type.Name)
    let h := fnvWrite h (stringBytes ":")
    let h := fnvWrite h (stringBytes str)
    h

/-- `HTMLElement.QuerySelector`; the result value comes with the store after the call (a new
element is a new object). -/
def QuerySelector (L : HtmlLib) (σ : Store) (el : HTMLElement) (selector : String) :
    Value × Store :=
  match el.selection.Find L selector with
  | none => (.None, σ)
  | some selection =>
    match http.NewHTMLElement (some selection) with
    | (some res, none) => σ.newElement res
    | _ => (.None, σ)

end HTMLElement

/-! ## More of goquery: text, attributes, children, closest -/

mutual

/-- The inner function of the goquery method `Selection.Text`: the data of the node if it is a
text node, then the text of its children, in order. -/
def nodeText : HtmlNode → String
  | .mk _ t d _ cs => (if t = NodeType.TextNode then d else "") ++ nodeTextList cs

/-- `nodeText` along a list of nodes. -/
def nodeTextList : List HtmlNode → String
  | [] => ""
  | c :: cs => nodeText c ++ nodeTextList cs

end

/-- The goquery method `Selection.Text`: "the combined text contents of each element in the
set of matched elements, including their descendants". -/
def Selection.Text (s : Selection) : String :=
  nodeTextList s.Nodes

/-- The goquery methods `Selection.Length` and `Selection.Size`. -/
def Selection.Length (s : Selection) : ℕ :=
  s.Nodes.length

/-- The goquery function `getAttributeValue`: the value of the first attribute with that key. -/
def getAttributeValue (attrName : String) (n : HtmlNode) : String × Bool :=
  match n.Attr.find? (fun a => a.1 = attrName) with
  | some a => (a.2, true)
  | none => ("", false)

/-- The goquery method `Selection.Attr`: the attribute of the first node of the selection. -/
def Selection.Attr (s : Selection) (attrName : String) : String × Bool :=
  match s.Nodes with
  | [] => ("", false)
  | n :: _ => getAttributeValue attrName n

/-- The goquery method `Selection.Children`: the element children of each node of the set,
without duplicates; a new selection, never nil. -/
def Selection.Children (s : Selection) : Option Selection :=
  some ⟨s.Nodes.foldl
    (fun result n =>
      appendWithoutDuplicates result
        (n.children.filter fun c => c.Typ = NodeType.ElementNode))
    []⟩

mutual

/-- The chain `n.Parent`, `n.Parent.Parent`, ... of the node with address `target`, looked up
in the tree below (and including) the given node; `none` when the node is not in that tree. -/
def ancestorsIn (target : ℕ) : HtmlNode → Option (List HtmlNode)
  | .mk i t d a cs =>
    if i = target then some []
    else
      match ancestorsInList target cs with
      | none => none
      | some chain => some (chain ++ [.mk i t d a cs])

/-- `ancestorsIn` along a chain of siblings. -/
def ancestorsInList (target : ℕ) : List HtmlNode → Option (List HtmlNode)
  | [] => none
  | c :: cs =>
    match ancestorsIn target c with
    | some chain => some chain
    | none => ancestorsInList target cs

end

/-- The callback of the goquery method `ClosestMatcher`: "test the node itself, then each
parent until a match is found". `root` is the tree the node lives in. -/
def closestNode (m : HtmlNode → Bool) (root : HtmlNode) (n : HtmlNode) : List HtmlNode :=
  match (n :: (ancestorsIn n.id root).getD []).find? m with
  | some x => [x]
  | none => []

/-- The goquery method `Selection.Closest`: for each node of the set the closest match among
the node and its ancestors, without duplicates; a new selection, never nil. -/
def Selection.Closest (L : HtmlLib) (root : HtmlNode) (s : Selection) (selector : String) :
    Option Selection :=
  some ⟨s.Nodes.foldl
    (fun result n => appendWithoutDuplicates result (closestNode (L.matcher selector) root n))
    []⟩

/-! ## values.Array and values.Object as far as element.go uses them -/

/-- Modelled from the spec: `values.NewArray` ("Array: ordered, index-addressed sequence of
Value, mutable"; array.go is not among the sources): a new, empty array object, whatever the
capacity asked for. -/
def Store.newArray (σ : Store) : ℕ × Store :=
  (σ.next, { σ with arrays := Function.update σ.arrays σ.next [], next := σ.next + 1 })

/-- Modelled from the spec: `(*values.Array).Push`, appending one item to the array object at
address `arr`. -/
def Store.arrayPush (σ : Store) (arr : ℕ) (item : Value) : Store :=
  { σ with arrays := Function.update σ.arrays arr (σ.arrays arr ++ [item]) }

/-- Modelled from the spec: `values.NewObject` ("Object: key-addressed mapping from String to
Value, insertion order preserved"; object.go is not among the sources): a new, empty object. -/
def Store.newObject (σ : Store) : ℕ × Store :=
  (σ.next, { σ with objects := Function.update σ.objects σ.next [], next := σ.next + 1 })

/-- The properties of an object after setting `key`: an existing key keeps its place and gets
the new value, a new key goes last. -/
def objectSetProperty (key : String) (value : Value) :
    List (String × Value) → List (String × Value)
  | [] => [(key, value)]
  | (k, v) :: rest =>
    if k = key then (k, value) :: rest else (k, v) :: objectSetProperty key value rest

/-- Modelled from the spec: `(*values.Object).Set` on the object at address `obj`. -/
def Store.objectSet (σ : Store) (obj : ℕ) (key : String) (value : Value) : Store :=
  { σ with objects := Function.update σ.objects obj (objectSetProperty key value (σ.objects obj)) }

/-! ## The static element, continued (element.go) -/

/-- The callback shared by `QuerySelectorAll` and `parseChildren`, run by `Selection.Each`
over the nodes in order: each node, as a selection of its own, becomes a new element that is
pushed to the array at `arr`, unless `NewHTMLElement` fails. -/
def eachNewElement (arr : ℕ) : Store → List HtmlNode → Store
  | σ, [] => σ
  | σ, n :: ns =>
    match http.NewHTMLElement (some ⟨[n]⟩) with
    | (some el, none) => eachNewElement arr ((σ.newElement el).2.arrayPush arr (σ.newElement el).1) ns
    | _ => eachNewElement arr σ ns

/-- The callback of `InnerTextBySelectorAll`, run by `Selection.Each`: the text of each node is
pushed. -/
def eachInnerText (arr : ℕ) : Store → List HtmlNode → Store
  | σ, [] => σ
  | σ, n :: ns =>
    eachInnerText arr (σ.arrayPush arr (.String (Selection.Text ⟨[n]⟩))) ns

/-- The callback of `InnerHTMLBySelectorAll`, run by `Selection.Each`: the HTML of each node is
pushed when its extraction succeeds, and nothing is pushed when it fails. -/
def eachInnerHTML (L : HtmlLib) (arr : ℕ) : Store → List HtmlNode → Store
  | σ, [] => σ
  | σ, n :: ns =>
    match Selection.Html L ⟨[n]⟩ with
    | (str, none) => eachInnerHTML L arr (σ.arrayPush arr (.String str)) ns
    | (_, some _) => eachInnerHTML L arr σ ns

/-- The loop of `parseAttrs` over the recognised attribute names. -/
def eachAttribute (sel : Selection) (obj : ℕ) : Store → List String → Store
  | σ, [] => σ
  | σ, name :: names =>
    match sel.Attr name with
    | (val, true) => eachAttribute sel obj (σ.objectSet obj name (.String val)) names
    | (_, false) => eachAttribute sel obj σ names

namespace HTMLElement

/-- `HTMLElement.InnerText`. -/
def InnerText (el : HTMLElement) : String :=
  el.selection.Text

/-- `HTMLElement.parseAttrs`; `attributes` is the list `common.Attributes` of recognised
attribute names (the `common` package is not among the sources).  The result is the address
of the new object and the store after the call. -/
def parseAttrs (attributes : List String) (σ : Store) (el : HTMLElement) : ℕ × Store :=
  (σ.newObject.1, eachAttribute el.selection σ.newObject.1 σ.newObject.2 attributes)

/-- `HTMLElement.parseChildren`.  The result is the address of the new array and the store
after the call; `none` stands for a nil dereference. -/
def parseChildren (σ : Store) (el : HTMLElement) : Option (ℕ × Store) :=
  match el.selection.Children with
  | none => none
  | some children => some (σ.newArray.1, eachNewElement σ.newArray.1 σ.newArray.2 children.Nodes)

/-- The store after the assignment `el.attrs = obj` to the element at address `r`. -/
def setAttrs (σ : Store) (r obj : ℕ) : Store :=
  { σ with elements := Function.update σ.elements r { σ.elements r with attrs := some obj } }

/-- The store after the assignment `el.children = arr` to the element at address `r`. -/
def setChildren (σ : Store) (r arr : ℕ) : Store :=
  { σ with elements := Function.update σ.elements r { σ.elements r with children := some arr } }

/-- `HTMLElement.GetAttributes` on the element at address `r`. -/
def GetAttributes (attributes : List String) (σ : Store) (r : ℕ) : Value × Store :=
  match (σ.elements r).attrs with
  | some obj => (.Object obj, σ)
  | none =>
    (.Object (parseAttrs attributes σ (σ.elements r)).1,
      setAttrs (parseAttrs attributes σ (σ.elements r)).2 r
        (parseAttrs attributes σ (σ.elements r)).1)

/-- `HTMLElement.GetChildNodes` on the element at address `r`; `none` stands for a nil
dereference. -/
def GetChildNodes (σ : Store) (r : ℕ) : Option (Value × Store) :=
  match (σ.elements r).children with
  | some arr => some (.Array arr, σ)
  | none =>
    match parseChildren σ (σ.elements r) with
    | none => none
    | some (arr, σ1) => some (.Array arr, setChildren σ1 r arr)

/-- `HTMLElement.Length` on the element at address `r`: the length of the (cached) array of
children. -/
def Length (σ : Store) (r : ℕ) : Option (ℤ × Store) :=
  match (σ.elements r).children with
  | some arr => some (((σ.arrays arr).length : ℤ), σ)
  | none =>
    match parseChildren σ (σ.elements r) with
    | none => none
    | some (arr, σ1) =>
      some ((((setChildren σ1 r arr).arrays arr).length : ℤ), setChildren σ1 r arr)

/-- `HTMLElement.QuerySelectorAll`. -/
def QuerySelectorAll (L : HtmlLib) (σ : Store) (el : HTMLElement) (selector : String) :
    Value × Store :=
  match el.selection.Find L selector with
  | none => (.None, σ)
  | some selection =>
    (.Array σ.newArray.1, eachNewElement σ.newArray.1 σ.newArray.2 selection.Nodes)

/-- `HTMLElement.InnerHTMLBySelectorAll`: the address of the new array and the store after the
call; `none` stands for a nil dereference. -/
def InnerHTMLBySelectorAll (L : HtmlLib) (σ : Store) (el : HTMLElement) (selector : String) :
    Option (ℕ × Store) :=
  match el.selection.Find L selector with
  | none => none
  | some selection =>
    some (σ.newArray.1, eachInnerHTML L σ.newArray.1 σ.newArray.2 selection.Nodes)

/-- `HTMLElement.InnerTextBySelector`; `none` stands for a nil dereference. -/
def InnerTextBySelector (L : HtmlLib) (el : HTMLElement) (selector : String) :
    Option String :=
  match el.selection.Find L selector with
  | none => none
  | some selection => some selection.Text

/-- `HTMLElement.InnerTextBySelectorAll`: the address of the new array and the store after the
call; `none` stands for a nil dereference. -/
def InnerTextBySelectorAll (L : HtmlLib) (σ : Store) (el : HTMLElement) (selector : String) :
    Option (ℕ × Store) :=
  match el.selection.Find L selector with
  | none => none
  | some selection =>
    some (σ.newArray.1, eachInnerText σ.newArray.1 σ.newArray.2 selection.Nodes)

/-- `HTMLElement.CountBySelector`. -/
def CountBySelector (L : HtmlLib) (el : HTMLElement) (selector : String) : ℤ :=
  match el.selection.Find L selector with
  | none => 0
  | some selection => (selection.Length : ℤ)

/-- `HTMLElement.ExistsBySelector`; `root` is the tree the nodes of the element live in
(through which `Closest` follows the parents). -/
def ExistsBySelector (L : HtmlLib) (root : HtmlNode) (el : HTMLElement) (selector : String) :
    values.Boolean :=
  match el.selection.Closest L root selector with
  | none => values.False
  | some _ => values.True

end HTMLElement

/-- Method dispatch of `Compare` on the value kinds whose source is at hand, Boolean and the
static HTMLElement; `none` for a failed type assertion and for the other kinds. -/
def Value.Compare (L : HtmlLib) (σ : Store) (a other : Value) : Option ℤ :=
  match a with
  | .Boolean t => values.Boolean.Compare σ t other
  | .HTMLElement r => HTMLElement.Compare L σ (σ.elements r) other
  | _ => none

/-- Method dispatch of `Hash` on the value kinds whose source is at hand. -/
def Value.Hash (L : HtmlLib) (σ : Store) (a : Value) : Option ℕ :=
  match a with
  | .Boolean t => some (values.Boolean.Hash t)
  | .HTMLElement r => some (HTMLElement.Hash L (σ.elements r))
  | _ => none

/-- The value is of a kind implemented in the sources: a Boolean or a static HTMLElement. -/
def Value.implementedHere : Value → Bool
  | .Boolean _ => true
  | .HTMLElement _ => true
  | _ => false

/-! ## CustomValue and the path accessors (helpers_test.go) -/

/-- The resolution rules of `values.GetIn` and `values.SetIn` for the kinds that do not bring
their own accessor (Object, Array, scalars): helpers.go is not among the sources, and the
accessors of `CustomValue` are studied for every such rule. -/
structure BuiltinAccess where
  get : Store → Value → List Value → Value × Option GoError
  set : Store → Value → List Value → Value → Store × Option GoError

/-- The Go statement `m[key] = value` on the map object at address `m`. -/
def Store.mapAssign (σ : Store) (m : ℕ) (key value : Value) : Store :=
  { σ with maps := Function.update σ.maps m (Function.update (σ.maps m) key (some value)) }

mutual

/-- Modelled from the spec: `values.GetIn` (helpers.go is not among the sources).  "An empty
path returns the root itself"; a "capability-bearing value" is delegated to, "recursing into
the accessor with the remaining path"; here that is a `*CustomValue`, every other kind follows
the rules `B`. -/
def values.GetIn (B : BuiltinAccess) (σ : Store) (src : Value) :
    List Value → Value × Option GoError
  | [] => (src, none)
  | segment :: rest =>
    match src with
    | .Custom r => CustomValue.GetIn B σ r (segment :: rest)
    | _ => B.get σ src (segment :: rest)
termination_by path => (path.length, 1)

/-- `(*CustomValue).GetIn`, the receiver being the object at address `t`. -/
def CustomValue.GetIn (B : BuiltinAccess) (σ : Store) (t : ℕ) :
    List Value → Value × Option GoError
  | [] => (.None, none)
  | propKey :: rest =>
    match σ.maps (σ.customs t).properties propKey with
    | none => (.None, none)
    | some propValue =>
      if rest.length = 0 then (propValue, none)
      else values.GetIn B σ propValue rest
termination_by path => (path.length, 0)

end

mutual

/-- Modelled from the spec: `values.SetIn` (helpers.go is not among the sources).  "An empty
path is a no-op"; a capability-bearing value (`*CustomValue`) is delegated to with the
remaining path, every other kind follows the rules `B`. -/
def values.SetIn (B : BuiltinAccess) (σ : Store) (dst : Value) (path : List Value)
    (value : Value) : Store × Option GoError :=
  match path with
  | [] => (σ, none)
  | segment :: rest =>
    match dst with
    | .Custom r => CustomValue.SetIn B σ r (segment :: rest) value
    | _ => B.set σ dst (segment :: rest) value
termination_by (path.length, 1)

/-- `(*CustomValue).SetIn`, the receiver being the object at address `t`; the store after the
call comes with the returned error. -/
def CustomValue.SetIn (B : BuiltinAccess) (σ : Store) (t : ℕ) (path : List Value)
    (value : Value) : Store × Option GoError :=
  match path with
  | [] => (σ, none)
  | propKey :: rest =>
    match σ.maps (σ.customs t).properties propKey with
    | none => (σ, none)
    | some propValue =>
      if rest.length = 0 then (σ.mapAssign (σ.customs t).properties propKey value, none)
      else values.SetIn B σ propValue rest value
termination_by (path.length, 0)

end

/-- The path resolves in the object at `t`: it is not empty, each segment is an existing
property key, and every property met before the last segment is itself a `*CustomValue`. -/
def CustomValue.resolves (σ : Store) (t : ℕ) : List Value → Bool
  | [] => false
  | [propKey] => (σ.maps (σ.customs t).properties propKey).isSome
  | propKey :: rest =>
    match σ.maps (σ.customs t).properties propKey with
    | some (.Custom r) => CustomValue.resolves σ r rest
    | _ => false

/-- The property slots (map object, key) that walking the path from the object at `t` reads,
in order; the last one is the slot `SetIn` assigns. -/
def CustomValue.slots (σ : Store) (t : ℕ) : List Value → List (ℕ × Value)
  | [] => []
  | propKey :: rest =>
    ((σ.customs t).properties, propKey) ::
      match σ.maps (σ.customs t).properties propKey with
      | some (.Custom r) => CustomValue.slots σ r rest
      | _ => []

/-- A store for examples: every `*CustomValue` owns the map at its own address, the map at
address 0 holds the one property "foo" whose value is the object at address 0 itself (so that
object is reachable from itself), every other map is empty. -/
def selfReferringStore : Store where
  customs := fun r => ⟨⟨"custom"⟩, r⟩
  maps := fun m key =>
    if m = 0 ∧ key = Value.String "foo" then some (Value.Custom 0) else none
  arrays := fun _ => []
  objects := fun _ => []
  elements := fun _ => ⟨⟨[]⟩, none, none⟩
  dynamicInnerHTML := fun _ => ""
  next := 2

/-- A store for examples, after the test of helpers_test.go: the object at address 0 has the
properties "foo" (the Int 1) and "bar" (the object at address 1), the object at address 1 has
the property "qaz" (the Int 2). -/
def testStore : Store where
  customs := fun r => ⟨⟨"custom"⟩, r⟩
  maps := fun m key =>
    if m = 0 ∧ key = Value.String "foo" then some (Value.Int 1)
    else if m = 0 ∧ key = Value.String "bar" then some (Value.Custom 1)
    else if m = 1 ∧ key = Value.String "qaz" then some (Value.Int 2)
    else none
  arrays := fun _ => []
  objects := fun _ => []
  elements := fun _ => ⟨⟨[]⟩, none, none⟩
  dynamicInnerHTML := fun _ => ""
  next := 2

/-- Rules for the built-in kinds used in examples: every lookup misses, every assignment is a
silent no-op. -/
def missAccess : BuiltinAccess where
  get := fun _ _ _ => (Value.None, none)
  set := fun σ _ _ _ => (σ, none)

/-! ## MAX (max.go) -/

namespace math

/-- Modelled from the spec: `toFloat` of the `math` package (lib.go is not among the sources),
"numeric kinds ... by numeric value regardless of subkind": the number an Int or a Float
holds; `none` when the value holds no number (the type assertion fails). -/
def toFloat : Value → Option ℚ
  | .Float f => some f
  | .Int i => some (i : ℚ)
  | _ => none

/-- The callback that `Max` hands to `arr.ForEach`, run over the items in order, with the
variables `max` and `err` of `Max` as state: a failed validation sets `err` and stops the
loop.  `none` when `toFloat` fails. -/
def maxForEach (σ : Store) : List Value → ℚ → Option (ℚ × Option GoError)
  | [], max => some (max, none)
  | value :: rest, max =>
    match core.ValidateType σ value [types.Float, types.Int] with
    | some err => some (max, some err)
    | none =>
      match toFloat value with
      | none => none
      | some fv => maxForEach σ rest (if fv > max then fv else max)

/-- `Max`.  The result is `none` when the call panics (an index out of range or a failed type
assertion). -/
def Max (σ : Store) (args : List Value) : Option (Value × Option GoError) :=
  match core.ValidateArgs args 1 1 with
  | some err => some (.None, some err)
  | none =>
    match args[0]? with
    | none => none
    | some arg0 =>
      match core.ValidateType σ arg0 [types.Array] with
      | some err => some (.None, some err)
      | none =>
        match assertArray arg0 with
        | none => none
        | some arr =>
          if (σ.arrays arr).length = 0 then some (.None, none)
          else
            match maxForEach σ (σ.arrays arr) 0 with
            | none => none
            | some (_, some _) => some (.None, none)
            | some (max, none) => some (.Float max, none)

end math

/-! ## WAIT_CLASS (wait_class.go) -/

/-- A call of `WaitForClass` on a dynamic document (selector, class, timeout) or on a dynamic
element (class, timeout), the receiver given by its address. -/
inductive WaitCall where
  | document (ref : ℕ) (selector className : String) (timeout : ℤ)
  | element (ref : ℕ) (className : String) (timeout : ℤ)
  deriving DecidableEq, Repr

namespace html

/-- The last steps of the document branch of `WaitClass`, from the type assertions on: the
optional fourth argument is validated and becomes the timeout, then the wait is delegated. -/
def waitClassDocument (wait : WaitCall → Option GoError) (defaultTimeout : ℤ) (σ : Store)
    (args : List Value) (doc : ℕ) (arg1 arg2 : Value) :
    Option (Value × Option GoError × List WaitCall) :=
  match assertString arg1, assertString arg2 with
  | some selector, some className =>
    if args.length = 4 then
      match args[3]? with
      | none => none
      | some arg3 =>
        match core.ValidateType σ arg3 [types.Int] with
        | some err => some (.None, some err, [])
        | none =>
          match assertInt arg3 with
          | none => none
          | some timeout =>
            some (.None, wait (.document doc selector className timeout),
              [.document doc selector className timeout])
    else
      some (.None, wait (.document doc selector className defaultTimeout),
        [.document doc selector className defaultTimeout])
  | _, _ => none

/-- The element branch of `WaitClass`: the optional third argument is validated and becomes
the timeout, then the wait is delegated. -/
def waitClassElement (wait : WaitCall → Option GoError) (defaultTimeout : ℤ) (σ : Store)
    (args : List Value) (el : ℕ) (arg1 : Value) :
    Option (Value × Option GoError × List WaitCall) :=
  match assertString arg1 with
  | none => none
  | some className =>
    if args.length = 3 then
      match args[2]? with
      | none => none
      | some arg2 =>
        match core.ValidateType σ arg2 [types.Int] with
        | some err => some (.None, some err, [])
        | none =>
          match assertInt arg2 with
          | none => none
          | some timeout =>
            some (.None, wait (.element el className timeout),
              [.element el className timeout])
    else
      some (.None, wait (.element el className defaultTimeout),
        [.element el className defaultTimeout])

/-- `WaitClass`.  `wait` is what the dynamic backend answers to a call of `WaitForClass`,
`defaultTimeout` the constant of that name (lib.go is not among the sources).  The result is
the returned value, the returned error and the calls of `WaitForClass` made, in order; it is
`none` when the call panics (an index out of range or a failed type assertion). -/
def WaitClass (wait : WaitCall → Option GoError) (defaultTimeout : ℤ) (σ : Store)
    (args : List Value) : Option (Value × Option GoError × List WaitCall) :=
  match core.ValidateArgs args 2 4 with
  | some err => some (.None, some err, [])
  | none =>
    match args[0]?, args[1]? with
    | some arg0, some arg1 =>
      match core.ValidateType σ arg0 [drivers.HTMLDocumentType, drivers.HTMLElementType] with
      | some err => some (.None, some err, [])
      | none =>
        match core.ValidateType σ arg1 [types.String] with
        | some err => some (.None, some err, [])
        | none =>
          match arg0 with
          | .DHTMLDocument doc =>
            match core.ValidateArgs args 3 4 with
            | some err => some (.None, some err, [])
            | none =>
              match args[2]? with
              | none => none
              | some arg2 =>
                match core.ValidateType σ arg2 [types.String] with
                | some err => some (.None, some err, [])
                | none => waitClassDocument wait defaultTimeout σ args doc arg1 arg2
          | .DHTMLNode el => waitClassElement wait defaultTimeout σ args el arg1
          | _ => some (.None, some (GoError.Errors .ErrInvalidType .ErrNotDynamic), [])
    | _, _ => none

end html

/-! ## INNER_TEXT_ALL (inner_text_all.go) -/

/-- The implementations of `drivers.HTMLNode` that are not among the sources (the static
document, the dynamic document and element): what their `InnerTextBySelectorAll` returns, as
the address of the array and the store after the call. -/
structure OtherNodes where
  InnerTextBySelectorAll : Store → Value → String → ℕ × Store

namespace html

/-- The two steps `doc := args[0].(drivers.HTMLNode)` and `doc.InnerTextBySelectorAll(selector)`
of `InnerTextAll`: the static element runs element.go, the other nodes what `N` says; `none`
when the value is no node (the type assertion fails) or on a nil dereference. -/
def nodeInnerTextBySelectorAll (L : HtmlLib) (N : OtherNodes) (σ : Store) (doc : Value)
    (selector : String) : Option (ℕ × Store) :=
  match doc with
  | .HTMLElement r => HTMLElement.InnerTextBySelectorAll L σ (σ.elements r) selector
  | .HTMLDocument _ => some (N.InnerTextBySelectorAll σ doc selector)
  | .DHTMLDocument _ => some (N.InnerTextBySelectorAll σ doc selector)
  | .DHTMLNode _ => some (N.InnerTextBySelectorAll σ doc selector)
  | _ => none

/-- `InnerTextAll`.  `HTMLNodeType` is the constant `drivers.HTMLNodeType` (its declaration is
not among the sources).  The result is the returned value and error with the store after the
call; it is `none` when the call panics. -/
def InnerTextAll (L : HtmlLib) (N : OtherNodes) (HTMLNodeType : CoreType) (σ : Store)
    (args : List Value) : Option ((Value × Option GoError) × Store) :=
  match core.ValidateArgs args 2 2 with
  | some err => some ((.None, some err), σ)
  | none =>
    match args[0]?, args[1]? with
    | some arg0, some arg1 =>
      match core.ValidateType σ arg0 [drivers.HTMLDocumentType, HTMLNodeType] with
      | some err => some ((.None, some err), σ)
      | none =>
        match core.ValidateType σ arg1 [types.String] with
        | some err => some ((.None, some err), σ)
        | none =>
          match assertString arg1 with
          | none => none
          | some selector =>
            match nodeInnerTextBySelectorAll L N σ arg0 selector with
            | none => none
            | some (arr, σ1) => some ((.Array arr, none), σ1)
    | _, _ => none

end html

/-! ## Sample data for the examples -/

mutual

/-- A renderer for examples, after `html.Render`: text is written as it is, an element as its
tag around its rendered children, a comment between its marks, and an `ErrorNode` cannot be
rendered. -/
def sampleRender : HtmlNode → Except GoError String
  | .mk _ t d _ cs =>
    match t with
    | .ErrorNode => .error (.External 0)
    | .TextNode => .ok d
    | .CommentNode => .ok ("<!--" ++ d ++ "-->")
    | .DoctypeNode => .ok ("<!DOCTYPE " ++ d ++ ">")
    | .DocumentNode => sampleRenderList cs
    | .ElementNode =>
      match sampleRenderList cs with
      | .error e => .error e
      | .ok inner => .ok ("<" ++ d ++ ">" ++ inner ++ "</" ++ d ++ ">")

/-- `sampleRender` along a chain of siblings. -/
def sampleRenderList : List HtmlNode → Except GoError String
  | [] => .ok ""
  | c :: cs =>
    match sampleRender c with
    | .error e => .error e
    | .ok str =>
      match sampleRenderList cs with
      | .error e => .error e
      | .ok rest => .ok (str ++ rest)

end

/-- Libraries for examples: a selector is a tag name and matches the elements with that tag;
rendering is `sampleRender`. -/
def sampleLib : HtmlLib where
  matcher := fun selector n => decide (n.Typ = NodeType.ElementNode ∧ n.Data = selector)
  render := sampleRender

/-- The markup `<div><p class="a">Hi</p><p class="b">Yo</p></div>` of the spec's scenarios,
as the node of the `div`. -/
def sampleDiv : HtmlNode :=
  .mk 1 .ElementNode "div" []
    [.mk 2 .ElementNode "p" [("class", "a")] [.mk 3 .TextNode "Hi" [] []],
     .mk 4 .ElementNode "p" [("class", "b")] [.mk 5 .TextNode "Yo" [] []]]

/-- A store for examples with three static elements: at address 0 an element whose only child
cannot be rendered, at address 1 an element without children (`<p></p>`), at address 2 the
element of `sampleDiv`. -/
def elementStore : Store where
  customs := fun r => ⟨⟨"custom"⟩, r⟩
  maps := fun _ _ => none
  arrays := fun _ => []
  objects := fun _ => []
  elements := fun r =>
    if r = 0 then ⟨⟨[.mk 10 .ElementNode "p" [] [.mk 11 .ErrorNode "" [] []]]⟩, none, none⟩
    else if r = 1 then ⟨⟨[.mk 20 .ElementNode "p" [] []]⟩, none, none⟩
    else ⟨⟨[sampleDiv]⟩, none, none⟩
  dynamicInnerHTML := fun _ => ""
  next := 3

/-- A store for examples with two arrays: at address 0 the array `[-1]`, at address 1 the array
`[-3, -1/2]`; every other array is empty. -/
def numberStore : Store where
  customs := fun r => ⟨⟨"custom"⟩, r⟩
  maps := fun _ _ => none
  arrays := fun r =>
    if r = 0 then [.Int (-1)] else if r = 1 then [.Int (-3), .Float (-1 / 2)] else []
  objects := fun _ => []
  elements := fun _ => ⟨⟨[]⟩, none, none⟩
  dynamicInnerHTML := fun _ => ""
  next := 2

/-- Libraries for examples with class selectors: the selector `.name` matches the elements
whose `class` attribute is `name`, any other selector is a tag name; rendering is
`sampleRender`. -/
def sampleClassLib : HtmlLib where
  matcher := fun selector n =>
    match selector.data with
    | '.' :: name =>
      decide (n.Typ = NodeType.ElementNode ∧
        getAttributeValue "class" n = (String.mk name, true))
    | _ => decide (n.Typ = NodeType.ElementNode ∧ n.Data = selector)
  render := sampleRender

/-- The second paragraph, `<p class="b">Yo</p>`, of `sampleDiv`. -/
def sampleParagraphB : HtmlNode :=
  .mk 4 .ElementNode "p" [("class", "b")] [.mk 5 .TextNode "Yo" [] []]

/-- The markup of `sampleDiv` once more, as another tree instance (other node addresses). -/
def sampleDivTwin : HtmlNode :=
  .mk 101 .ElementNode "div" []
    [.mk 102 .ElementNode "p" [("class", "a")] [.mk 103 .TextNode "Hi" [] []],
     .mk 104 .ElementNode "p" [("class", "b")] [.mk 105 .TextNode "Yo" [] []]]

/-- A `div` with two paragraphs, the first of which has a child that cannot be rendered. -/
def brokenDiv : HtmlNode :=
  .mk 30 .ElementNode "div" []
    [.mk 31 .ElementNode "p" [] [.mk 32 .ErrorNode "" [] []],
     .mk 33 .ElementNode "p" [] [.mk 34 .TextNode "Yo" [] []]]

/-- A store for examples with four static elements: at address 0 the element of `sampleDiv`,
at address 1 that of `sampleDivTwin`, at address 2 that of `brokenDiv`, elsewhere that of
`sampleParagraphB`; the array `[1, "x", 3]` at address 0, every other array empty. -/
def nodeStore : Store where
  customs := fun r => ⟨⟨"custom"⟩, r⟩
  maps := fun _ _ => none
  arrays := fun r => if r = 0 then [.Int 1, .String "x", .Int 3] else []
  objects := fun _ => []
  elements := fun r =>
    if r = 0 then ⟨⟨[sampleDiv]⟩, none, none⟩
    else if r = 1 then ⟨⟨[sampleDivTwin]⟩, none, none⟩
    else if r = 2 then ⟨⟨[brokenDiv]⟩, none, none⟩
    else ⟨⟨[sampleParagraphB]⟩, none, none⟩
  dynamicInnerHTML := fun _ => ""
  next := 10

/-- Other nodes for examples: their `InnerTextBySelectorAll` allocates a new empty array. -/
def sampleOtherNodes : OtherNodes where
  InnerTextBySelectorAll := fun σ _ _ => σ.newArray

/-! # Properties -/

section BooleanProperties

/-- Comparing a Boolean with a Boolean never fails and has the value read off the source. -/
theorem Boolean_Compare_boolean (σ : Store) (a b : values.Boolean) :
    values.Boolean.Compare σ a (.Boolean b) =
      some (if a = b then 0 else if a = false ∧ b = true then -1 else 1) := by
  unfold values.Boolean.Compare
  simp only [Value.Type, Value.Unwrap, if_true]
  cases a <;> cases b <;> simp

/-- C1: for all Booleans `a`, `b` the call `a.Compare(b)` yields a result `r` with
`r = 0` exactly when `a = b`, `r < 0` exactly when `a` is false and `b` is true, `r > 0`
exactly when `a` is true and `b` is false; `b.Compare(a)` is `-r`; the order is transitive
(strictly and non-strictly); `true.Compare(false) > 0` and `false.Compare(false) = 0`. -/
theorem Boolean_Compare_total_order (σ : Store) (a b : values.Boolean) :
    ∃ r : ℤ, values.Boolean.Compare σ a (.Boolean b) = some r ∧
      (r = 0 ↔ a = b) ∧
      (r < 0 ↔ (a = false ∧ b = true)) ∧
      (0 < r ↔ (a = true ∧ b = false)) ∧
      values.Boolean.Compare σ b (.Boolean a) = some (-r) ∧
      (∀ (c : values.Boolean) (s : ℤ), values.Boolean.Compare σ b (.Boolean c) = some s →
        ∃ u : ℤ, values.Boolean.Compare σ a (.Boolean c) = some u ∧
          (r < 0 → s < 0 → u < 0) ∧ (r ≤ 0 → s ≤ 0 → u ≤ 0)) ∧
      (∃ p : ℤ, values.Boolean.Compare σ (values.NewBoolean true) (.Boolean (values.NewBoolean false)) = some p ∧
        0 < p) ∧
      values.Boolean.Compare σ (values.NewBoolean false) (.Boolean (values.NewBoolean false)) = some 0 := by
  refine ⟨_, Boolean_Compare_boolean σ a b, ?_, ?_, ?_, ?_, ?_, ?_, ?_⟩
  · cases a <;> cases b <;> simp
  · cases a <;> cases b <;> simp
  · cases a <;> cases b <;> simp
  · rw [Boolean_Compare_boolean]
    cases a <;> cases b <;> simp
  · intro c s hs
    rw [Boolean_Compare_boolean, Option.some.injEq] at hs
    subst hs
    refine ⟨_, Boolean_Compare_boolean σ a c, ?_, ?_⟩ <;>
      cases a <;> cases b <;> cases c <;> decide
  · exact ⟨_, Boolean_Compare_boolean σ _ _, by simp [values.NewBoolean]⟩
  · rw [Boolean_Compare_boolean]; simp [values.NewBoolean]

/-- On a letter of the accepted words, `unicode.ToLower` and ASCII lower-casing agree,
provided the Unicode tables send no rune from 0x80 on to such a letter. -/
theorem unicodeToLower_eq_letter (tbl : Char → Char)
    (htbl : ∀ c : Char, 128 ≤ c.toNat → tbl c ∉ values.booleanWordLetters)
    (c l : Char) (hl : l ∈ values.booleanWordLetters) :
    values.unicodeToLower tbl c = l ↔ values.asciiLower c = l := by
  unfold values.unicodeToLower values.asciiLower
  by_cases h : c.toNat < 128
  · simp [h]
  · have h128 : 128 ≤ c.toNat := by omega
    have hne : tbl c ≠ l := fun e => htbl c h128 (e ▸ hl)
    have hup : ¬ (65 ≤ c.toNat ∧ c.toNat ≤ 90) := by omega
    simp only [h, hup, if_false]
    constructor
    · intro e; exact absurd e hne
    · intro e
      subst e
      exfalso
      simp only [values.booleanWordLetters, List.mem_cons, List.mem_singleton, List.not_mem_nil,
        or_false] at hl
      rcases hl with e | e | e | e | e | e | e | e <;> rw [e] at h <;> exact h (by decide)

/-- Lower-casing by `strings.ToLower` hits a word made of the accepted letters exactly when
ASCII lower-casing does. -/
theorem map_unicodeToLower_eq (tbl : Char → Char)
    (htbl : ∀ c : Char, 128 ≤ c.toNat → tbl c ∉ values.booleanWordLetters) :
    ∀ (cs w : List Char), (∀ l ∈ w, l ∈ values.booleanWordLetters) →
      (cs.map (values.unicodeToLower tbl) = w ↔ cs.map values.asciiLower = w)
  | [], w, _ => by simp
  | c :: cs, [], _ => by simp
  | c :: cs, l :: w, hw => by
    have h1 := unicodeToLower_eq_letter tbl htbl c l (hw l (List.mem_cons_self _ _))
    have h2 := map_unicodeToLower_eq tbl htbl cs w
      (fun x hx => hw x (List.mem_cons_of_mem _ hx))
    simp only [List.map_cons, List.cons.injEq, h1, h2]

/-- `strings.ToLower s` is the word `w` (one of the accepted words) exactly when `s` equals `w`
ignoring case. -/
theorem stringsToLower_eq_iff (tbl : Char → Char)
    (htbl : ∀ c : Char, 128 ≤ c.toNat → tbl c ∉ values.booleanWordLetters)
    (s w : String) (hw : ∀ l ∈ w.data, l ∈ values.booleanWordLetters)
    (hfix : w.data.map values.asciiLower = w.data) :
    values.stringsToLower tbl s = w ↔ values.EqualsIgnoringCase s w := by
  unfold values.stringsToLower values.EqualsIgnoringCase
  rw [hfix, ← map_unicodeToLower_eq tbl htbl s.data w.data hw]
  constructor
  · intro h; rw [← h]
  · intro h; exact String.ext h

/-- C3: `values.ParseBoolean` returns `(True, nil)` exactly for the native `true` and for a string
equal to "true" ignoring case, `(False, nil)` exactly for the native `false` and for a string
equal to "false" ignoring case; it succeeds exactly on these inputs, and on every other input
(any other string, any other host type) it returns the `ErrInvalidType` error.  The Unicode
case tables `tbl` are those of Go: no rune from 0x80 on is lower-cased to a letter of the two
words. -/
theorem ParseBoolean_spec (tbl : Char → Char)
    (htbl : ∀ c : Char, 128 ≤ c.toNat → tbl c ∉ values.booleanWordLetters) (input : HostValue) :
    (values.ParseBoolean tbl input = (values.True, none) ↔
      (input = .bool true ∨ ∃ s, input = .string s ∧ values.EqualsIgnoringCase s "true")) ∧
    (values.ParseBoolean tbl input = (values.False, none) ↔
      (input = .bool false ∨ ∃ s, input = .string s ∧ values.EqualsIgnoringCase s "false")) ∧
    ((values.ParseBoolean tbl input).2 = none ↔
      ((∃ b, input = .bool b) ∨
        ∃ s, input = .string s ∧ (values.EqualsIgnoringCase s "true" ∨ values.EqualsIgnoringCase s "false"))) ∧
    ((values.ParseBoolean tbl input).2 ≠ none →
      values.ParseBoolean tbl input =
        (values.False, some (GoError.Error GoError.ErrInvalidType "expected 'bool'"))) := by
  have ht := fun s => stringsToLower_eq_iff tbl htbl s "true" (by decide) (by decide)
  have hf := fun s => stringsToLower_eq_iff tbl htbl s "false" (by decide) (by decide)
  cases input with
  | bool b => cases b <;> simp [values.ParseBoolean, values.True, values.False]
  | other n => simp [values.ParseBoolean, values.True, values.False]
  | string s =>
    simp only [values.ParseBoolean, ← ht, ← hf]
    by_cases h1 : values.stringsToLower tbl s = "true"
    · simp [h1, values.True, values.False]
    · by_cases h2 : values.stringsToLower tbl s = "false"
      · simp [h1, h2, values.True, values.False]
      · simp [h1, h2, values.True, values.False]

/-- Witness for C3: with case tables that leave every rune from 0x80 on in place, the string
"TrUe" parses to `True` and the string "yes" gives the `ErrInvalidType` error. -/
theorem ParseBoolean_spec_witness :
    (∀ c : Char, 128 ≤ c.toNat → (fun x : Char => x) c ∉ values.booleanWordLetters) ∧
    values.ParseBoolean (fun x => x) (.string "TrUe") = (values.True, none) ∧
    values.ParseBoolean (fun x => x) (.string "yes") =
      (values.False, some (GoError.Error GoError.ErrInvalidType "expected 'bool'")) := by
  have h : ∀ c : Char, 128 ≤ c.toNat → (fun x : Char => x) c ∉ values.booleanWordLetters := by
    intro c hc hl
    simp only [values.booleanWordLetters, List.mem_cons, List.mem_singleton, List.not_mem_nil,
      or_false] at hl
    rcases hl with e | e | e | e | e | e | e | e <;> rw [e] at hc <;> revert hc <;> decide
  refine ⟨h, ?_, ?_⟩
  · exact (ParseBoolean_spec _ h (.string "TrUe")).1.2 (Or.inr ⟨_, rfl, by decide⟩)
  · exact (ParseBoolean_spec _ h (.string "yes")).2.2.2 (by decide)

end BooleanProperties

section CompareAndHash

/-- Across kinds, a Boolean never compares equal to a static element. -/
theorem Boolean_Compare_element (σ : Store) (t : values.Boolean) (r : ℕ) :
    values.Boolean.Compare σ t (.HTMLElement r) = some (-1) := by
  unfold values.Boolean.Compare
  simp only [Value.Type]
  rw [if_neg (by decide)]
  rfl

/-- Across kinds, a static element never compares equal to a Boolean. -/
theorem HTMLElement_Compare_boolean (L : HtmlLib) (σ : Store) (el : HTMLElement) (b : Bool) :
    HTMLElement.Compare L σ el (.Boolean b) = some 1 := by
  unfold HTMLElement.Compare
  simp only [Value.Type]
  rw [if_neg (by decide)]
  rfl

/-- Two static elements compare by their inner HTML. -/
theorem HTMLElement_Compare_element (L : HtmlLib) (σ : Store) (el : HTMLElement) (r : ℕ) :
    HTMLElement.Compare L σ el (.HTMLElement r) =
      some (if HTMLElement.InnerHTML L el = HTMLElement.InnerHTML L (σ.elements r) then 0
        else if HTMLElement.InnerHTML L el < HTMLElement.InnerHTML L (σ.elements r) then -1
        else 1) := by
  unfold HTMLElement.Compare values.String.Compare
  simp only [Value.Type, Value.Unwrap, HTMLElement.otherInnerHTML, if_true]
  split <;> [rfl; (split <;> rfl)]

/-- C2 (amended): for two values of the kinds implemented here (Boolean, static
HTMLElement), if `a.Compare(b)` is 0 then `a.Hash()` equals `b.Hash()`, provided that, when
both are HTMLElements, the HTML serialization fails for both or for neither. -/
theorem compare_zero_hash_eq (L : HtmlLib) (σ : Store) (a b : Value)
    (ha : a.implementedHere = true) (hb : b.implementedHere = true)
    (hser : ∀ r1 r2, a = .HTMLElement r1 → b = .HTMLElement r2 →
      ((((σ.elements r1).selection.Html L).2 = none) ↔
        (((σ.elements r2).selection.Html L).2 = none)))
    (hcmp : Value.Compare L σ a b = some 0) :
    Value.Hash L σ a = Value.Hash L σ b := by
  cases a <;> simp [Value.implementedHere] at ha <;>
    cases b <;> simp [Value.implementedHere] at hb
  · rename_i x y
    simp only [Value.Compare, Boolean_Compare_boolean] at hcmp
    have hxy : x = y := by
      by_contra hne
      cases x <;> cases y <;> simp_all
    rw [hxy]
  · simp [Value.Compare, Boolean_Compare_element] at hcmp
  · simp [Value.Compare, HTMLElement_Compare_boolean] at hcmp
  · rename_i r1 r2
    have hs := hser r1 r2 rfl rfl
    simp only [Value.Compare, HTMLElement_Compare_element, Option.some.injEq] at hcmp
    have heq : HTMLElement.InnerHTML L (σ.elements r1) =
        HTMLElement.InnerHTML L (σ.elements r2) := by
      by_contra hne
      rw [if_neg hne] at hcmp
      split at hcmp <;> simp at hcmp
    simp only [Value.Hash, Option.some.injEq]
    unfold HTMLElement.Hash
    unfold HTMLElement.InnerHTML at heq
    rcases h1 : (σ.elements r1).selection.Html L with ⟨s1, e1⟩
    rcases h2 : (σ.elements r2).selection.Html L with ⟨s2, e2⟩
    rw [h1, h2] at hs heq
    cases e1 <;> cases e2 <;> simp_all [HTMLElement.Type]

/-- Witness for C2: the element of the sample markup compared with itself. -/
theorem compare_zero_hash_eq_witness :
    Value.Compare sampleLib elementStore (.HTMLElement 2) (.HTMLElement 2) = some 0 ∧
    Value.Hash sampleLib elementStore (.HTMLElement 2) =
      Value.Hash sampleLib elementStore (.HTMLElement 2) := by
  have hc : Value.Compare sampleLib elementStore (.HTMLElement 2) (.HTMLElement 2) = some 0 := by
    simp [Value.Compare, HTMLElement_Compare_element]
  exact ⟨hc, compare_zero_hash_eq sampleLib elementStore _ _ rfl rfl
    (fun r1 r2 h1 h2 => by
      cases h1; cases h2; exact Iff.rfl) hc⟩

/-- Counterexample to C2 as stated: an element whose serialization fails and an element with
empty inner HTML compare equal (both inner HTMLs are the empty string), but the first hashes
to 0 and the second to the FNV hash of "HTMLElement:". -/
theorem compare_zero_hash_differs :
    Value.implementedHere (.HTMLElement 0) = true ∧
    Value.implementedHere (.HTMLElement 1) = true ∧
    ((elementStore.elements 0).selection.Html sampleLib).2 ≠ none ∧
    Value.Compare sampleLib elementStore (.HTMLElement 0) (.HTMLElement 1) = some 0 ∧
    Value.Hash sampleLib elementStore (.HTMLElement 0) = some 0 ∧
    Value.Hash sampleLib elementStore (.HTMLElement 1) = some 5984503530477708454 ∧
    Value.Hash sampleLib elementStore (.HTMLElement 0) ≠
      Value.Hash sampleLib elementStore (.HTMLElement 1) := by
  have h0 : (elementStore.elements 0).selection.Html sampleLib = ("", some (.External 0)) := by
    rfl
  have h1 : (elementStore.elements 1).selection.Html sampleLib = ("", none) := by
    rfl
  have g0 : Value.Hash sampleLib elementStore (.HTMLElement 0) = some 0 := by
    simp only [Value.Hash, HTMLElement.Hash, h0]
  have g1 : Value.Hash sampleLib elementStore (.HTMLElement 1) = some 5984503530477708454 := by
    simp only [Value.Hash, HTMLElement.Hash, h1, Option.some.injEq]
    decide
  refine ⟨rfl, rfl, ?_, ?_, g0, g1, ?_⟩
  · rw [h0]; simp
  · simp only [Value.Compare, HTMLElement_Compare_element, HTMLElement.InnerHTML, h0, h1]
    simp
  · rw [g0, g1]; simp

end CompareAndHash

section PathAccessors

/-- Reading the slot just assigned gives the assigned value. -/
theorem Store.mapAssign_maps_same (σ : Store) (m : ℕ) (key value : Value) :
    (σ.mapAssign m key value).maps m key = some value := by
  simp [Store.mapAssign]

/-- Reading any other slot gives what was there before. -/
theorem Store.mapAssign_maps_other (σ : Store) (m m2 : ℕ) (key key2 value : Value)
    (h : (m2, key2) ≠ (m, key)) :
    (σ.mapAssign m key value).maps m2 key2 = σ.maps m2 key2 := by
  unfold Store.mapAssign
  by_cases hm : m2 = m
  · subst hm
    have hk : key2 ≠ key := fun e => h (by rw [e])
    simp [Function.update_noteq hk]
  · simp [Function.update_noteq hm]

/-- The slots of a path that resolves are never empty. -/
theorem CustomValue.slots_ne_nil (σ : Store) (t : ℕ) (k : Value) (rest : List Value) :
    CustomValue.slots σ t (k :: rest) ≠ [] := by
  simp [CustomValue.slots]

/-- On a path that resolves, `SetIn` assigns the last slot of the walk and reports no error. -/
theorem CustomValue.SetIn_of_resolves (B : BuiltinAccess) (σ : Store) (value : Value) :
    ∀ (path : List Value) (t : ℕ) (s : ℕ × Value),
      CustomValue.resolves σ t path = true →
      (CustomValue.slots σ t path).getLast? = some s →
      CustomValue.SetIn B σ t path value = (σ.mapAssign s.1 s.2 value, none)
  | [], _, _, hres, _ => by simp [CustomValue.resolves] at hres
  | [k], t, s, hres, hlast => by
    simp only [CustomValue.resolves, Option.isSome_iff_exists] at hres
    obtain ⟨pv, hpv⟩ := hres
    have hs : s = ((σ.customs t).properties, k) := by
      cases pv <;> simp_all [CustomValue.slots]
    subst hs
    rw [CustomValue.SetIn]
    simp [hpv]
  | k :: k2 :: rest, t, s, hres, hlast => by
    rw [CustomValue.resolves] at hres
    · cases hpv : σ.maps (σ.customs t).properties k with
      | none => simp [hpv] at hres
      | some pv =>
        cases pv with
        | Custom r =>
          simp only [hpv] at hres
          have hl : (CustomValue.slots σ r (k2 :: rest)).getLast? = some s := by
            rw [CustomValue.slots, hpv] at hlast
            simpa [List.getLast?_cons_cons, CustomValue.slots] using hlast
          have ih := CustomValue.SetIn_of_resolves B σ value (k2 :: rest) r s hres hl
          rw [CustomValue.SetIn]
          simp only [hpv, List.length_cons]
          rw [values.SetIn]
          simpa using ih
        | _ => simp [hpv] at hres
    · simp

/-- After the last slot of a resolving walk has been assigned, and when no earlier step of the
walk reads that slot, `GetIn` along the same path returns the assigned value. -/
theorem CustomValue.GetIn_after_assign (B : BuiltinAccess) (σ : Store) (value : Value) :
    ∀ (path : List Value) (t : ℕ) (s : ℕ × Value),
      CustomValue.resolves σ t path = true →
      (CustomValue.slots σ t path).getLast? = some s →
      s ∉ (CustomValue.slots σ t path).dropLast →
      CustomValue.GetIn B (σ.mapAssign s.1 s.2 value) t path = (value, none)
  | [], _, _, hres, _, _ => by simp [CustomValue.resolves] at hres
  | [k], t, s, hres, hlast, _ => by
    simp only [CustomValue.resolves, Option.isSome_iff_exists] at hres
    obtain ⟨pv, hpv⟩ := hres
    have hs : s = ((σ.customs t).properties, k) := by
      cases pv <;> simp_all [CustomValue.slots]
    subst hs
    rw [CustomValue.GetIn]
    have hc : ((σ.mapAssign (σ.customs t).properties k value).customs t).properties =
        (σ.customs t).properties := rfl
    simp [hc, Store.mapAssign_maps_same]
  | k :: k2 :: rest, t, s, hres, hlast, hnot => by
    rw [CustomValue.resolves] at hres
    · cases hpv : σ.maps (σ.customs t).properties k with
      | none => simp [hpv] at hres
      | some pv =>
        cases pv with
        | Custom r =>
          simp only [hpv] at hres
          have hsl : CustomValue.slots σ t (k :: k2 :: rest) =
              ((σ.customs t).properties, k) :: CustomValue.slots σ r (k2 :: rest) := by
            rw [CustomValue.slots, hpv]
          obtain ⟨x, xs, hx⟩ := List.exists_cons_of_ne_nil
            (CustomValue.slots_ne_nil σ r k2 rest)
          rw [hsl, hx] at hlast hnot
          rw [List.getLast?_cons_cons, ← hx] at hlast
          rw [List.dropLast_cons₂, ← hx, List.mem_cons, not_or] at hnot
          have ih := CustomValue.GetIn_after_assign B σ value (k2 :: rest) r s hres hlast
            hnot.2
          have hc : ((σ.mapAssign s.1 s.2 value).customs t).properties =
              (σ.customs t).properties := rfl
          have hm : (σ.mapAssign s.1 s.2 value).maps (σ.customs t).properties k =
              some (Value.Custom r) := by
            rw [Store.mapAssign_maps_other σ s.1 _ s.2 k value (fun e => hnot.1 e.symm), hpv]
          rw [CustomValue.GetIn]
          simp only [hc, hm, List.length_cons]
          rw [values.GetIn]
          simpa using ih
        | _ => simp [hpv] at hres
    · simp

/-- C4 (amended): for every `*CustomValue` container, every path that resolves in it and every
value, when the property slot that `SetIn` assigns (the last slot of the walk) is not a slot
that an earlier segment of the path reads, `SetIn` returns no error and a following `GetIn`
along the same path returns the value with no error. -/
theorem CustomValue.SetIn_GetIn_round_trip (B : BuiltinAccess) (σ : Store) (t : ℕ)
    (path : List Value) (value : Value)
    (hres : CustomValue.resolves σ t path = true)
    (hfresh : ∀ s, (CustomValue.slots σ t path).getLast? = some s →
      s ∉ (CustomValue.slots σ t path).dropLast) :
    (CustomValue.SetIn B σ t path value).2 = none ∧
      CustomValue.GetIn B (CustomValue.SetIn B σ t path value).1 t path = (value, none) := by
  have hne : CustomValue.slots σ t path ≠ [] := by
    cases path with
    | nil => simp [CustomValue.resolves] at hres
    | cons k rest => exact CustomValue.slots_ne_nil σ t k rest
  obtain ⟨s, hs⟩ := Option.isSome_iff_exists.mp
    (List.getLast?_isSome.mpr hne)
  rw [CustomValue.SetIn_of_resolves B σ value path t s hres hs]
  exact ⟨rfl, CustomValue.GetIn_after_assign B σ value path t s hres hs (hfresh s hs)⟩

/-- Witness for C4: in the store of the test, setting "bar"."qaz" to the String "foobar" and
getting it back. -/
theorem CustomValue.SetIn_GetIn_round_trip_witness :
    CustomValue.resolves testStore 0 [.String "bar", .String "qaz"] = true ∧
    (CustomValue.SetIn missAccess testStore 0 [.String "bar", .String "qaz"]
      (.String "foobar")).2 = none ∧
    CustomValue.GetIn missAccess
      (CustomValue.SetIn missAccess testStore 0 [.String "bar", .String "qaz"]
        (.String "foobar")).1 0 [.String "bar", .String "qaz"] = (.String "foobar", none) := by
  have hres : CustomValue.resolves testStore 0 [.String "bar", .String "qaz"] = true := by
    simp [CustomValue.resolves, testStore]
  refine ⟨hres, CustomValue.SetIn_GetIn_round_trip missAccess testStore 0 _ _ hres ?_⟩
  intro s hs
  simp [CustomValue.slots, testStore] at hs ⊢
  subst hs
  simp

/-- Counterexample to C4 as stated: the path "foo"."foo" resolves in a container whose property
"foo" is the container itself; `SetIn` with the value `v` (another object, without
properties) replaces that very property, and the following `GetIn` returns None, not `v`. -/
theorem CustomValue.SetIn_GetIn_round_trip_fails :
    CustomValue.resolves selfReferringStore 0 [.String "foo", .String "foo"] = true ∧
    (CustomValue.SetIn missAccess selfReferringStore 0 [.String "foo", .String "foo"]
      (.Custom 1)).2 = none ∧
    CustomValue.GetIn missAccess
      (CustomValue.SetIn missAccess selfReferringStore 0 [.String "foo", .String "foo"]
        (.Custom 1)).1 0 [.String "foo", .String "foo"] = (.None, none) ∧
    CustomValue.GetIn missAccess
      (CustomValue.SetIn missAccess selfReferringStore 0 [.String "foo", .String "foo"]
        (.Custom 1)).1 0 [.String "foo", .String "foo"] ≠ (.Custom 1, none) := by
  have hset : CustomValue.SetIn missAccess selfReferringStore 0
      [.String "foo", .String "foo"] (.Custom 1) =
      (selfReferringStore.mapAssign 0 (.String "foo") (.Custom 1), none) := by
    rw [CustomValue.SetIn]
    simp only [selfReferringStore, and_self, if_true, List.length_cons, List.length_nil]
    rw [values.SetIn, CustomValue.SetIn]
    simp
  have hget : CustomValue.GetIn missAccess
      (selfReferringStore.mapAssign 0 (.String "foo") (.Custom 1)) 0
      [.String "foo", .String "foo"] = (.None, none) := by
    rw [CustomValue.GetIn]
    simp only [Store.mapAssign, selfReferringStore, Function.update_same, List.length_cons,
      List.length_nil]
    rw [values.GetIn, CustomValue.GetIn]
    simp
  refine ⟨by simp [CustomValue.resolves, selfReferringStore], ?_, ?_, ?_⟩
  · rw [hset]
  · rw [hset, hget]
  · rw [hset, hget]; simp

/-- C5: when the first segment of a non-empty path is not a property key of the container,
`GetIn` returns the None value and no error, and `SetIn` returns no error and the store
unchanged: no key is added and no value replaced, in this container or anywhere else. -/
theorem CustomValue.miss_policy (B : BuiltinAccess) (σ : Store) (t : ℕ)
    (propKey : Value) (rest : List Value) (value : Value)
    (hmiss : σ.maps (σ.customs t).properties propKey = none) :
    CustomValue.GetIn B σ t (propKey :: rest) = (.None, none) ∧
    CustomValue.SetIn B σ t (propKey :: rest) value = (σ, none) := by
  constructor
  · rw [CustomValue.GetIn]; simp [hmiss]
  · rw [CustomValue.SetIn]; simp [hmiss]

/-- Witness for C5: the container of the test has no property "zzz". -/
theorem CustomValue.miss_policy_witness :
    testStore.maps (testStore.customs 0).properties (.String "zzz") = none ∧
    CustomValue.GetIn missAccess testStore 0 [.String "zzz", .String "qaz"] = (.None, none) ∧
    CustomValue.SetIn missAccess testStore 0 [.String "zzz", .String "qaz"] (.Int 7) =
      (testStore, none) := by
  have h : testStore.maps (testStore.customs 0).properties (.String "zzz") = none := by
    simp [testStore]
  exact ⟨h, CustomValue.miss_policy missAccess testStore 0 _ _ _ h⟩

end PathAccessors

section MaxProperties

/-- C6 (the code at the failing input): for the array `[-1]`, whose greatest value is -1, `Max`
returns the Float 0 with no error; and for the array `[-3, -1/2]` likewise the Float 0. -/
theorem Max_negative_array :
    math.Max numberStore [.Array 0] = some (.Float 0, none) ∧
    math.Max numberStore [.Array 1] = some (.Float 0, none) := by
  constructor
  · simp [math.Max, core.ValidateArgs, core.ValidateType, Value.Type, assertArray, numberStore,
      math.maxForEach, math.toFloat]
  · simp [math.Max, core.ValidateArgs, core.ValidateType, Value.Type, assertArray, numberStore,
      math.maxForEach, math.toFloat]
    norm_num

end MaxProperties

section WaitClassProperties

/-- Kind of a static element. -/
theorem kindOf_HTMLElement (σ : Store) (r : ℕ) :
    (Value.HTMLElement r).Type σ = drivers.HTMLElementType := rfl

/-- Kind of a static document. -/
theorem kindOf_HTMLDocument (σ : Store) (r : ℕ) :
    (Value.HTMLDocument r).Type σ = drivers.HTMLDocumentType := rfl

/-- Kind of a dynamic document. -/
theorem kindOf_DHTMLDocument (σ : Store) (r : ℕ) :
    (Value.DHTMLDocument r).Type σ = drivers.HTMLDocumentType := rfl

/-- Kind of a dynamic element. -/
theorem kindOf_DHTMLNode (σ : Store) (r : ℕ) :
    (Value.DHTMLNode r).Type σ = drivers.HTMLElementType := rfl

/-- Kind of a String. -/
theorem kindOf_String (σ : Store) (s : String) :
    (Value.String s).Type σ = types.String := rfl

/-- Kind of an Int. -/
theorem kindOf_Int (σ : Store) (i : ℤ) :
    (Value.Int i).Type σ = types.Int := rfl

/-- C7 (the code at the failing input): with a dynamic element and four arguments, whatever
the third and fourth are, `WaitClass` raises no argument-count error: it calls the element's
`WaitForClass` with the default timeout and returns what that call returns. -/
theorem WaitClass_element_four_args (wait : WaitCall → Option GoError) (defaultTimeout : ℤ)
    (σ : Store) (el : ℕ) (className : String) (arg2 arg3 : Value) :
    html.WaitClass wait defaultTimeout σ [.DHTMLNode el, .String className, arg2, arg3] =
      some (.None, wait (.element el className defaultTimeout),
        [.element el className defaultTimeout]) := by
  simp [html.WaitClass, html.waitClassElement, core.ValidateArgs, core.ValidateType,
    Value.Type, assertString]

/-- C8 (amended): for every argument list whose first argument is a static document or
element, `WaitClass` fails, returns the None value and calls no `WaitForClass`; the error is
the not-dynamic (capability) error exactly when the list has two to four arguments and the
second is of the String kind, and otherwise it is the argument-count error (fewer than two or
more than four arguments) or the type error of the second argument. -/
theorem WaitClass_static (wait : WaitCall → Option GoError) (defaultTimeout : ℤ) (σ : Store)
    (args : List Value) (r : ℕ)
    (hstatic : args[0]? = some (.HTMLElement r) ∨ args[0]? = some (.HTMLDocument r)) :
    ∃ err, html.WaitClass wait defaultTimeout σ args = some (.None, some err, []) ∧
      (err = GoError.Errors .ErrInvalidType .ErrNotDynamic ↔
        (2 ≤ args.length ∧ args.length ≤ 4 ∧
          ∃ arg1, args[1]? = some arg1 ∧ arg1.Type σ = types.String)) ∧
      (args.length < 2 ∨ 4 < args.length → err = .ErrInvalidArgumentNumber) ∧
      (2 ≤ args.length → args.length ≤ 4 →
        (∀ arg1, args[1]? = some arg1 → arg1.Type σ ≠ types.String) →
        err = .ErrInvalidType) := by
  unfold html.WaitClass core.ValidateArgs
  by_cases hlen : args.length < 2 ∨ args.length > 4
  · rw [if_pos hlen]
    refine ⟨_, rfl, ?_, ?_, ?_⟩
    · constructor
      · intro h; cases h
      · rintro ⟨h1, h2, -⟩; omega
    · intro _; rfl
    · intro h1 h2; omega
  · rw [if_neg hlen]
    have h2 : 2 ≤ args.length := by omega
    have h4 : args.length ≤ 4 := by omega
    obtain ⟨arg1, harg1⟩ : ∃ arg1, args[1]? = some arg1 :=
      ⟨args[1], List.getElem?_eq_getElem (by omega)⟩
    by_cases hs : arg1.Type σ = types.String
    · rcases hstatic with h0 | h0
      · refine ⟨GoError.Errors .ErrInvalidType .ErrNotDynamic, ?_, ?_, ?_, ?_⟩
        · simp [h0, harg1, core.ValidateType, hs, kindOf_HTMLElement, kindOf_HTMLDocument, kindOf_DHTMLDocument,
      kindOf_DHTMLNode, kindOf_String, kindOf_Int]
        · simp only [true_iff]
          exact ⟨h2, h4, arg1, harg1, hs⟩
        · intro h; omega
        · intro _ _ h; exact absurd hs (h arg1 harg1)
      · refine ⟨GoError.Errors .ErrInvalidType .ErrNotDynamic, ?_, ?_, ?_, ?_⟩
        · simp [h0, harg1, core.ValidateType, hs, kindOf_HTMLElement, kindOf_HTMLDocument, kindOf_DHTMLDocument,
      kindOf_DHTMLNode, kindOf_String, kindOf_Int]
        · simp only [true_iff]
          exact ⟨h2, h4, arg1, harg1, hs⟩
        · intro h; omega
        · intro _ _ h; exact absurd hs (h arg1 harg1)
    · rcases hstatic with h0 | h0
      · refine ⟨.ErrInvalidType, ?_, ?_, ?_, ?_⟩
        · simp [h0, harg1, core.ValidateType, hs, kindOf_HTMLElement, kindOf_HTMLDocument, kindOf_DHTMLDocument,
      kindOf_DHTMLNode, kindOf_String, kindOf_Int]
        · constructor
          · intro h; cases h
          · rintro ⟨-, -, a, ha, hat⟩
            rw [harg1] at ha; cases ha; exact absurd hat hs
        · intro h; omega
        · intro _ _ _; rfl
      · refine ⟨.ErrInvalidType, ?_, ?_, ?_, ?_⟩
        · simp [h0, harg1, core.ValidateType, hs, kindOf_HTMLElement, kindOf_HTMLDocument, kindOf_DHTMLDocument,
      kindOf_DHTMLNode, kindOf_String, kindOf_Int]
        · constructor
          · intro h; cases h
          · rintro ⟨-, -, a, ha, hat⟩
            rw [harg1] at ha; cases ha; exact absurd hat hs
        · intro h; omega
        · intro _ _ _; rfl

/-- Witness for C8: a static element, a class name and a timeout. -/
theorem WaitClass_static_witness :
    ∃ err, html.WaitClass (fun _ => none) 5000 elementStore
        [.HTMLElement 2, .String "visible", .Int 200] = some (.None, some err, []) ∧
      err = GoError.Errors .ErrInvalidType .ErrNotDynamic := by
  obtain ⟨err, h, hiff, -, -⟩ := WaitClass_static (fun _ => none) 5000 elementStore
    [.HTMLElement 2, .String "visible", .Int 200] 2 (Or.inl rfl)
  exact ⟨err, h, hiff.mpr ⟨by decide, by decide, _, rfl, rfl⟩⟩

/-- Counterexample to C8 as stated: with a static element as the only argument the error is
the argument-count error, and with a static element followed by an Int it is the plain type
error of the second argument; neither is the not-dynamic (capability) error. -/
theorem WaitClass_static_other_errors :
    html.WaitClass (fun _ => none) 5000 elementStore [.HTMLElement 2] =
      some (.None, some .ErrInvalidArgumentNumber, []) ∧
    html.WaitClass (fun _ => none) 5000 elementStore [.HTMLElement 2, .Int 1] =
      some (.None, some .ErrInvalidType, []) ∧
    GoError.ErrInvalidArgumentNumber ≠ GoError.Errors .ErrInvalidType .ErrNotDynamic ∧
    GoError.ErrInvalidType ≠ GoError.Errors .ErrInvalidType .ErrNotDynamic := by
  refine ⟨?_, ?_, by decide, by decide⟩
  · simp [html.WaitClass, core.ValidateArgs]
  · simp [html.WaitClass, core.ValidateArgs, core.ValidateType, Value.Type]
    decide

/-- C9: a well-typed call of `WaitClass` is delegated faithfully.  (doc, selector, class) and
(doc, selector, class, t) make the one call `doc.WaitForClass(selector, class, timeout)`,
(el, class) and (el, class, t) the one call `el.WaitForClass(class, timeout)`, the timeout
being the Int `t` when passed and the default otherwise; the result is the None value with
exactly the error (or none) of that call.  A timeout argument that is not of the Int kind
gives the type error and no call. -/
theorem WaitClass_delegates (wait : WaitCall → Option GoError) (defaultTimeout : ℤ)
    (σ : Store) (doc el : ℕ) (selector className : String) (t : ℤ) :
    html.WaitClass wait defaultTimeout σ
        [.DHTMLDocument doc, .String selector, .String className] =
      some (.None, wait (.document doc selector className defaultTimeout),
        [.document doc selector className defaultTimeout]) ∧
    html.WaitClass wait defaultTimeout σ
        [.DHTMLDocument doc, .String selector, .String className, .Int t] =
      some (.None, wait (.document doc selector className t),
        [.document doc selector className t]) ∧
    html.WaitClass wait defaultTimeout σ [.DHTMLNode el, .String className] =
      some (.None, wait (.element el className defaultTimeout),
        [.element el className defaultTimeout]) ∧
    html.WaitClass wait defaultTimeout σ [.DHTMLNode el, .String className, .Int t] =
      some (.None, wait (.element el className t), [.element el className t]) ∧
    (∀ x : Value, x.Type σ ≠ types.Int →
      html.WaitClass wait defaultTimeout σ
          [.DHTMLDocument doc, .String selector, .String className, x] =
        some (.None, some .ErrInvalidType, []) ∧
      html.WaitClass wait defaultTimeout σ [.DHTMLNode el, .String className, x] =
        some (.None, some .ErrInvalidType, [])) := by
  refine ⟨?_, ?_, ?_, ?_, ?_⟩
  · simp [html.WaitClass, html.waitClassDocument, core.ValidateArgs, core.ValidateType,
      Value.Type, assertString]
  · simp [html.WaitClass, html.waitClassDocument, core.ValidateArgs, core.ValidateType,
      Value.Type, assertString, assertInt]
  · simp [html.WaitClass, html.waitClassElement, core.ValidateArgs, core.ValidateType,
      Value.Type, assertString]
  · simp [html.WaitClass, html.waitClassElement, core.ValidateArgs, core.ValidateType,
      Value.Type, assertString, assertInt]
  · intro x hx
    constructor
    · simp [html.WaitClass, html.waitClassDocument, core.ValidateArgs, core.ValidateType,
        kindOf_HTMLElement, kindOf_HTMLDocument, kindOf_DHTMLDocument,
      kindOf_DHTMLNode, kindOf_String, kindOf_Int, assertString, hx]
    · simp [html.WaitClass, html.waitClassElement, core.ValidateArgs, core.ValidateType,
        kindOf_HTMLElement, kindOf_HTMLDocument, kindOf_DHTMLDocument,
      kindOf_DHTMLNode, kindOf_String, kindOf_Int, assertString, hx]

end WaitClassProperties

section QuerySelectorProperties

/-- `QuerySelector` returns a new element in every case, never the None value: `Find` gives a
selection that is not nil, and `NewHTMLElement` accepts it. -/
theorem QuerySelector_returns_element (L : HtmlLib) (σ : Store) (el : HTMLElement)
    (selector : String) :
    (HTMLElement.QuerySelector L σ el selector).1 = .HTMLElement σ.next := by
  simp [HTMLElement.QuerySelector, Selection.Find, http.NewHTMLElement, Store.newElement]

/-- C10 (the code at the failing input): on the `div` of the markup
`<div><p class="a">Hi</p><p class="b">Yo</p></div>` the selector "span" matches nothing, and
`QuerySelector` returns a new element that wraps the empty selection, not the None value. -/
theorem QuerySelector_no_match :
    findWithMatcher [sampleDiv] (sampleLib.matcher "span") = [] ∧
    (HTMLElement.QuerySelector sampleLib elementStore (elementStore.elements 2) "span").1 =
      .HTMLElement 3 ∧
    ((HTMLElement.QuerySelector sampleLib elementStore (elementStore.elements 2)
      "span").2.elements 3).selection.Nodes = [] ∧
    (HTMLElement.QuerySelector sampleLib elementStore (elementStore.elements 2) "span").1 ≠
      .None := by
  have hfind : findWithMatcher [sampleDiv] (sampleLib.matcher "span") = [] := by
    rfl
  refine ⟨hfind, rfl, ?_, ?_⟩
  · simp only [HTMLElement.QuerySelector, Selection.Find, http.NewHTMLElement,
      Store.newElement, elementStore]
    simp [hfind]
  · simp [HTMLElement.QuerySelector, Selection.Find, http.NewHTMLElement, Store.newElement]

end QuerySelectorProperties

section ElementProperties

/-- `ExistsBySelector` returns `True` in every case: `Closest` gives a selection that is not
nil. -/
theorem ExistsBySelector_true (L : HtmlLib) (root : HtmlNode) (el : HTMLElement)
    (selector : String) :
    HTMLElement.ExistsBySelector L root el selector = values.True := by
  simp [HTMLElement.ExistsBySelector, Selection.Closest]

/-- C11 (the code at the failing input): in the markup
`<div><p class="a">Hi</p><p class="b">Yo</p></div>` neither the paragraph of class "b" nor its
ancestor matches the selector ".a" (the closest-match selection is empty), and
`ExistsBySelector(".a")` on that paragraph returns `True` all the same. -/
theorem ExistsBySelector_unrelated_sibling :
    (ancestorsIn sampleParagraphB.id sampleDiv).map (fun chain => chain.map HtmlNode.id) =
      some [sampleDiv.id] ∧
    (sampleParagraphB :: (ancestorsIn sampleParagraphB.id sampleDiv).getD []).find?
      (sampleClassLib.matcher ".a") = none ∧
    Selection.Closest sampleClassLib sampleDiv ⟨[sampleParagraphB]⟩ ".a" = some ⟨[]⟩ ∧
    HTMLElement.ExistsBySelector sampleClassLib sampleDiv ⟨⟨[sampleParagraphB]⟩, none, none⟩
      ".a" = values.True := by
  refine ⟨by rfl, by rfl, by rfl, by rfl⟩

/-- C18: `NewHTMLElement` fails exactly for the nil handle: nil gives no element and the
missing-argument error, and a handle that is not nil gives, with no error, an element that
wraps the handle and has both caches nil. -/
theorem NewHTMLElement_spec (node : Option Selection) :
    ((http.NewHTMLElement node).2 ≠ none ↔ node = none) ∧
    (node = none →
      http.NewHTMLElement node =
        (none, some (GoError.Error GoError.ErrMissedArgument "element selection"))) ∧
    (∀ sel, node = some sel →
      http.NewHTMLElement node = (some ⟨sel, none, none⟩, none)) := by
  cases node <;> simp [http.NewHTMLElement]

/-- Pushing an item appends it to the array pushed to. -/
theorem Store.arrayPush_arrays_same (σ : Store) (arr : ℕ) (item : Value) :
    (σ.arrayPush arr item).arrays arr = σ.arrays arr ++ [item] := by
  simp [Store.arrayPush]

/-- The loop of `InnerTextBySelectorAll` appends the text of each node, in order. -/
theorem eachInnerText_arrays (arr : ℕ) :
    ∀ (ns : List HtmlNode) (σ : Store),
      (eachInnerText arr σ ns).arrays arr =
        σ.arrays arr ++ ns.map (fun n => Value.String (Selection.Text ⟨[n]⟩))
  | [], σ => by simp [eachInnerText]
  | n :: ns, σ => by
    rw [eachInnerText, eachInnerText_arrays arr ns, Store.arrayPush_arrays_same]
    simp

/-- What a node contributes to the array of `InnerHTMLBySelectorAll`: its HTML when the
extraction succeeds, nothing when it fails. -/
theorem eachInnerHTML_arrays (L : HtmlLib) (arr : ℕ) :
    ∀ (ns : List HtmlNode) (σ : Store),
      (eachInnerHTML L arr σ ns).arrays arr =
        σ.arrays arr ++ ns.filterMap (fun n =>
          if (Selection.Html L ⟨[n]⟩).2 = none then
            some (Value.String (Selection.Html L ⟨[n]⟩).1)
          else none)
  | [], σ => by simp [eachInnerHTML]
  | n :: ns, σ => by
    rw [eachInnerHTML]
    rcases h : Selection.Html L ⟨[n]⟩ with ⟨str, e⟩
    cases e with
    | none =>
      simp only [eachInnerHTML_arrays L arr ns, Store.arrayPush_arrays_same]
      simp [List.filterMap_cons, h]
    | some err =>
      simp only [eachInnerHTML_arrays L arr ns]
      simp [List.filterMap_cons, h]

/-- The loop of `QuerySelectorAll` and `parseChildren` allocates one element per node, at
consecutive addresses, and appends these addresses to the array, in order. -/
theorem eachNewElement_arrays (arr : ℕ) :
    ∀ (ns : List HtmlNode) (σ : Store),
      (eachNewElement arr σ ns).arrays arr =
        σ.arrays arr ++ (List.range' σ.next ns.length).map Value.HTMLElement
  | [], σ => by simp [eachNewElement]
  | n :: ns, σ => by
    rw [eachNewElement]
    simp only [http.NewHTMLElement]
    rw [eachNewElement_arrays arr ns, Store.arrayPush_arrays_same]
    simp [Store.newElement, Store.arrayPush, List.range'_succ]

/-- The loop of `QuerySelectorAll` and `parseChildren` leaves the elements allocated before
it as they are. -/
theorem eachNewElement_elements_old (arr : ℕ) :
    ∀ (ns : List HtmlNode) (σ : Store) (r : ℕ), r < σ.next →
      (eachNewElement arr σ ns).elements r = σ.elements r
  | [], σ, r, _ => by simp [eachNewElement]
  | n :: ns, σ, r, hr => by
    rw [eachNewElement]
    simp only [http.NewHTMLElement]
    rw [eachNewElement_elements_old arr ns _ r (by simp [Store.newElement, Store.arrayPush]; omega)]
    simp [Store.newElement, Store.arrayPush, Function.update_noteq (Nat.ne_of_lt hr)]

/-- The element that the loop of `QuerySelectorAll` allocates for the `i`-th node wraps that
node alone and has empty caches. -/
theorem eachNewElement_elements_new (arr : ℕ) :
    ∀ (ns : List HtmlNode) (σ : Store) (i : ℕ) (h : i < ns.length),
      (eachNewElement arr σ ns).elements (σ.next + i) = ⟨⟨[ns.get ⟨i, h⟩]⟩, none, none⟩
  | [], _, _, h => by simp at h
  | n :: ns, σ, 0, _ => by
    rw [eachNewElement]
    simp only [http.NewHTMLElement]
    rw [Nat.add_zero,
      eachNewElement_elements_old arr ns _ σ.next (by simp [Store.newElement, Store.arrayPush])]
    simp [Store.newElement, Store.arrayPush]
  | n :: ns, σ, i + 1, h => by
    rw [eachNewElement]
    simp only [http.NewHTMLElement]
    have h2 : i < ns.length := by simpa using h
    have ih := eachNewElement_elements_new arr ns
      ((σ.newElement ⟨⟨[n]⟩, none, none⟩).2.arrayPush arr (σ.newElement ⟨⟨[n]⟩, none, none⟩).1) i h2
    have hn : ((σ.newElement ⟨⟨[n]⟩, none, none⟩).2.arrayPush arr
        (σ.newElement ⟨⟨[n]⟩, none, none⟩).1).next = σ.next + 1 := rfl
    rw [hn] at ih
    have ha : σ.next + (i + 1) = σ.next + 1 + i := by omega
    rw [ha, ih]
    simp

/-- A new array is empty. -/
theorem Store.newArray_arrays (σ : Store) :
    σ.newArray.2.arrays σ.newArray.1 = [] := by
  simp [Store.newArray]

/-- C12: `InnerTextBySelectorAll` returns a new Array holding one String per match of
`Find`, in match order, the `i`-th being the inner text of the element that wraps the `i`-th
match; `QuerySelectorAll` returns an Array of as many elements, the `i`-th wrapping the
`i`-th match; `CountBySelector` is that number; without a match the Array is empty (and it is
an Array, not None). -/
theorem InnerTextBySelectorAll_spec (L : HtmlLib) (σ : Store) (el : HTMLElement)
    (selector : String) :
    ∃ (a : ℕ) (σ1 : Store) (a2 : ℕ) (σ2 : Store),
      HTMLElement.InnerTextBySelectorAll L σ el selector = some (a, σ1) ∧
      HTMLElement.QuerySelectorAll L σ el selector = (.Array a2, σ2) ∧
      σ1.arrays a =
        (findWithMatcher el.selection.Nodes (L.matcher selector)).map
          (fun n => Value.String (HTMLElement.InnerText ⟨⟨[n]⟩, none, none⟩)) ∧
      σ2.arrays a2 =
        (List.range' (σ.next + 1)
          (findWithMatcher el.selection.Nodes (L.matcher selector)).length).map
          Value.HTMLElement ∧
      (∀ (i : ℕ) (h : i < (findWithMatcher el.selection.Nodes (L.matcher selector)).length),
        σ2.elements (σ.next + 1 + i) =
          ⟨⟨[(findWithMatcher el.selection.Nodes (L.matcher selector)).get ⟨i, h⟩]⟩,
            none, none⟩) ∧
      (σ1.arrays a).length = (σ2.arrays a2).length ∧
      ((σ1.arrays a).length : ℤ) = HTMLElement.CountBySelector L el selector ∧
      (findWithMatcher el.selection.Nodes (L.matcher selector) = [] → σ1.arrays a = []) := by
  refine ⟨σ.newArray.1,
    eachInnerText σ.newArray.1 σ.newArray.2
      (findWithMatcher el.selection.Nodes (L.matcher selector)),
    σ.newArray.1,
    eachNewElement σ.newArray.1 σ.newArray.2
      (findWithMatcher el.selection.Nodes (L.matcher selector)), rfl, rfl, ?_, ?_, ?_, ?_, ?_, ?_⟩
  · rw [eachInnerText_arrays, Store.newArray_arrays]
    simp [HTMLElement.InnerText]
  · rw [eachNewElement_arrays, Store.newArray_arrays]
    rfl
  · intro i h
    exact eachNewElement_elements_new σ.newArray.1 _ σ.newArray.2 i h
  · rw [eachInnerText_arrays, eachNewElement_arrays, Store.newArray_arrays]
    simp
  · rw [eachInnerText_arrays, Store.newArray_arrays]
    simp [HTMLElement.CountBySelector, Selection.Find, Selection.Length]
  · intro h
    rw [eachInnerText_arrays, Store.newArray_arrays, h]
    rfl

/-- C14 (amended): `InnerHTMLBySelectorAll` returns, with no error, a new Array holding, in
match order, the HTML of each match whose extraction succeeds; a match whose extraction fails
contributes nothing.  So the length of the array is at most `CountBySelector`, and equal to it
when no extraction fails. -/
theorem InnerHTMLBySelectorAll_spec (L : HtmlLib) (σ : Store) (el : HTMLElement)
    (selector : String) :
    ∃ (a : ℕ) (σ1 : Store),
      HTMLElement.InnerHTMLBySelectorAll L σ el selector = some (a, σ1) ∧
      σ1.arrays a =
        (findWithMatcher el.selection.Nodes (L.matcher selector)).filterMap
          (fun n =>
            if (Selection.Html L ⟨[n]⟩).2 = none then
              some (Value.String (Selection.Html L ⟨[n]⟩).1)
            else none) ∧
      ((σ1.arrays a).length : ℤ) ≤ HTMLElement.CountBySelector L el selector ∧
      ((∀ n ∈ findWithMatcher el.selection.Nodes (L.matcher selector),
          (Selection.Html L ⟨[n]⟩).2 = none) →
        ((σ1.arrays a).length : ℤ) = HTMLElement.CountBySelector L el selector) := by
  refine ⟨σ.newArray.1,
    eachInnerHTML L σ.newArray.1 σ.newArray.2
      (findWithMatcher el.selection.Nodes (L.matcher selector)), rfl, ?_, ?_, ?_⟩
  · rw [eachInnerHTML_arrays, Store.newArray_arrays]
    simp
  · rw [eachInnerHTML_arrays, Store.newArray_arrays]
    simp only [List.nil_append, HTMLElement.CountBySelector, Selection.Find, Selection.Length,
      Nat.cast_le]
    exact List.length_filterMap_le _ _
  · intro hall
    rw [eachInnerHTML_arrays, Store.newArray_arrays]
    simp only [List.nil_append, HTMLElement.CountBySelector, Selection.Find, Selection.Length,
      Nat.cast_inj]
    have : ∀ l : List HtmlNode, (∀ n ∈ l, (Selection.Html L ⟨[n]⟩).2 = none) →
        (l.filterMap (fun n =>
          if (Selection.Html L ⟨[n]⟩).2 = none then
            some (Value.String (Selection.Html L ⟨[n]⟩).1)
          else none)).length = l.length := by
      intro l
      induction l with
      | nil => intro _; rfl
      | cons x xs ih =>
        intro hl
        have hx := hl x (List.mem_cons_self _ _)
        have hxs := ih (fun n hn => hl n (List.mem_cons_of_mem _ hn))
        simp [List.filterMap_cons, hx, hxs]
    exact this _ hall

/-- Counterexample to C14 as stated: in a `div` with two paragraphs, the first of which
cannot be serialized, the selector "p" has two matches (`CountBySelector` is 2), and
`InnerHTMLBySelectorAll` returns the array `["Yo"]` of length 1: the failing match is
dropped, it does not contribute an empty string. -/
theorem InnerHTMLBySelectorAll_drops_failed_match :
    HTMLElement.CountBySelector sampleLib (nodeStore.elements 2) "p" = 2 ∧
    (HTMLElement.InnerHTMLBySelectorAll sampleLib nodeStore (nodeStore.elements 2) "p").map
      (fun res => res.2.arrays res.1) = some [Value.String "Yo"] := by
  constructor
  · rfl
  · have h : HTMLElement.InnerHTMLBySelectorAll sampleLib nodeStore (nodeStore.elements 2)
        "p" = some (nodeStore.newArray.1,
          eachInnerHTML sampleLib nodeStore.newArray.1 nodeStore.newArray.2
            (findWithMatcher (nodeStore.elements 2).selection.Nodes
              (sampleLib.matcher "p"))) := rfl
    rw [h]
    simp only [Option.map_some', eachInnerHTML_arrays, Store.newArray_arrays]
    rfl

/-- The text of a list of nodes is the concatenation of the texts of the nodes. -/
theorem nodeTextList_eq_foldr :
    ∀ ns : List HtmlNode,
      nodeTextList ns =
        (ns.map (fun n => HTMLElement.InnerText ⟨⟨[n]⟩, none, none⟩)).foldr (· ++ ·) ""
  | [] => by simp [nodeTextList]
  | n :: ns => by
    rw [nodeTextList, nodeTextList_eq_foldr ns]
    simp [HTMLElement.InnerText, Selection.Text, nodeTextList]

/-- C15 (amended): `InnerTextBySelector` returns the concatenation, in match order, of the
inner texts of all matching descendants, which is the inner text of the element that
`QuerySelector` returns; it is the empty string when nothing matches and the inner text of
the match when there is exactly one. -/
theorem InnerTextBySelector_spec (L : HtmlLib) (σ : Store) (el : HTMLElement)
    (selector : String) :
    HTMLElement.InnerTextBySelector L el selector =
      some (((findWithMatcher el.selection.Nodes (L.matcher selector)).map
        (fun n => HTMLElement.InnerText ⟨⟨[n]⟩, none, none⟩)).foldr (· ++ ·) "") ∧
    HTMLElement.InnerTextBySelector L el selector =
      some (HTMLElement.InnerText
        ((HTMLElement.QuerySelector L σ el selector).2.elements σ.next)) ∧
    (findWithMatcher el.selection.Nodes (L.matcher selector) = [] →
      HTMLElement.InnerTextBySelector L el selector = some "") ∧
    (∀ n, findWithMatcher el.selection.Nodes (L.matcher selector) = [n] →
      HTMLElement.InnerTextBySelector L el selector =
        some (HTMLElement.InnerText ⟨⟨[n]⟩, none, none⟩)) := by
  have h : HTMLElement.InnerTextBySelector L el selector =
      some (nodeTextList (findWithMatcher el.selection.Nodes (L.matcher selector))) := rfl
  refine ⟨?_, ?_, ?_, ?_⟩
  · rw [h, nodeTextList_eq_foldr]
  · rw [h]
    simp [HTMLElement.QuerySelector, Selection.Find, http.NewHTMLElement, Store.newElement,
      HTMLElement.InnerText, Selection.Text]
  · intro hm
    rw [h, hm]
    rfl
  · intro n hn
    rw [h, hn]
    rfl

/-- Counterexample to C15 as stated: on the markup
`<div><p class="a">Hi</p><p class="b">Yo</p></div>` the selector "p" has two matches, the inner
text of the first is "Hi", and `InnerTextBySelector("p")` returns "HiYo": the text of the
second match is part of the result. -/
theorem InnerTextBySelector_all_matches :
    (findWithMatcher [sampleDiv] (sampleLib.matcher "p")).length = 2 ∧
    (findWithMatcher [sampleDiv] (sampleLib.matcher "p")).head?.map
      (fun n => HTMLElement.InnerText ⟨⟨[n]⟩, none, none⟩) = some "Hi" ∧
    HTMLElement.InnerTextBySelector sampleLib ⟨⟨[sampleDiv]⟩, none, none⟩ "p" = some "HiYo" ∧
    HTMLElement.InnerTextBySelector sampleLib ⟨⟨[sampleDiv]⟩, none, none⟩ "p" ≠ some "Hi" := by
  have h : HTMLElement.InnerTextBySelector sampleLib ⟨⟨[sampleDiv]⟩, none, none⟩ "p" =
      some "HiYo" := by rfl
  refine ⟨by rfl, by rfl, h, ?_⟩
  rw [h]
  decide

/-- C16 (amended): two HTMLElements whose serialized inner HTML (what `InnerHTML` returns) is
byte-identical, whatever tree instances they wrap, compare equal in both directions; and they
have the same hash provided the HTML serialization fails for both or for neither. -/
theorem HTMLElement_equal_of_same_InnerHTML (L : HtmlLib) (σ : Store) (ra rb : ℕ)
    (hinner : HTMLElement.InnerHTML L (σ.elements ra) =
      HTMLElement.InnerHTML L (σ.elements rb)) :
    HTMLElement.Compare L σ (σ.elements ra) (.HTMLElement rb) = some 0 ∧
    HTMLElement.Compare L σ (σ.elements rb) (.HTMLElement ra) = some 0 ∧
    ((((σ.elements ra).selection.Html L).2 = none ↔
        ((σ.elements rb).selection.Html L).2 = none) →
      HTMLElement.Hash L (σ.elements ra) = HTMLElement.Hash L (σ.elements rb)) := by
  refine ⟨?_, ?_, ?_⟩
  · rw [HTMLElement_Compare_element, hinner]; simp
  · rw [HTMLElement_Compare_element, hinner]; simp
  · intro hser
    unfold HTMLElement.Hash
    unfold HTMLElement.InnerHTML at hinner
    rcases h1 : (σ.elements ra).selection.Html L with ⟨s1, e1⟩
    rcases h2 : (σ.elements rb).selection.Html L with ⟨s2, e2⟩
    rw [h1, h2] at hser hinner
    cases e1 <;> cases e2 <;> simp_all [HTMLElement.Type]

/-- Witness for C16: the elements of `sampleDiv` and of `sampleDivTwin` wrap different tree
instances (other node addresses) of the same markup; both serialize, to the same string. -/
theorem HTMLElement_equal_of_same_InnerHTML_witness :
    HTMLElement.InnerHTML sampleLib (nodeStore.elements 0) = "<p>Hi</p><p>Yo</p>" ∧
    HTMLElement.InnerHTML sampleLib (nodeStore.elements 1) = "<p>Hi</p><p>Yo</p>" ∧
    sampleDiv.id ≠ sampleDivTwin.id ∧
    HTMLElement.Compare sampleLib nodeStore (nodeStore.elements 0) (.HTMLElement 1) = some 0 ∧
    HTMLElement.Compare sampleLib nodeStore (nodeStore.elements 1) (.HTMLElement 0) = some 0 ∧
    HTMLElement.Hash sampleLib (nodeStore.elements 0) =
      HTMLElement.Hash sampleLib (nodeStore.elements 1) := by
  have ha : HTMLElement.InnerHTML sampleLib (nodeStore.elements 0) = "<p>Hi</p><p>Yo</p>" := by
    rfl
  have hb : HTMLElement.InnerHTML sampleLib (nodeStore.elements 1) = "<p>Hi</p><p>Yo</p>" := by
    rfl
  have h := HTMLElement_equal_of_same_InnerHTML sampleLib nodeStore 0 1 (ha.trans hb.symm)
  have h0 : ((nodeStore.elements 0).selection.Html sampleLib).2 = none := rfl
  have h1 : ((nodeStore.elements 1).selection.Html sampleLib).2 = none := rfl
  exact ⟨ha, hb, by decide, h.1, h.2.1, h.2.2 ⟨fun _ => h1, fun _ => h0⟩⟩

/-- Counterexample to C16 as stated: an element whose serialization fails and an element with
empty inner HTML have byte-identical inner HTML (the empty string) and compare equal in both
directions, but their hashes differ (0 and the FNV hash of "HTMLElement:"). -/
theorem HTMLElement_same_InnerHTML_hash_differs :
    HTMLElement.InnerHTML sampleLib (elementStore.elements 0) = "" ∧
    HTMLElement.InnerHTML sampleLib (elementStore.elements 1) = "" ∧
    HTMLElement.Compare sampleLib elementStore (elementStore.elements 0) (.HTMLElement 1) =
      some 0 ∧
    HTMLElement.Compare sampleLib elementStore (elementStore.elements 1) (.HTMLElement 0) =
      some 0 ∧
    HTMLElement.Hash sampleLib (elementStore.elements 0) = 0 ∧
    HTMLElement.Hash sampleLib (elementStore.elements 1) = 5984503530477708454 ∧
    HTMLElement.Hash sampleLib (elementStore.elements 0) ≠
      HTMLElement.Hash sampleLib (elementStore.elements 1) := by
  have i0 : HTMLElement.InnerHTML sampleLib (elementStore.elements 0) = "" := by rfl
  have i1 : HTMLElement.InnerHTML sampleLib (elementStore.elements 1) = "" := by rfl
  have g0 : HTMLElement.Hash sampleLib (elementStore.elements 0) = 0 := by rfl
  have g1 : HTMLElement.Hash sampleLib (elementStore.elements 1) = 5984503530477708454 := by
    have h1 : (elementStore.elements 1).selection.Html sampleLib = ("", none) := by rfl
    simp only [HTMLElement.Hash, h1]
    decide
  refine ⟨i0, i1, ?_, ?_, g0, g1, ?_⟩
  · rw [HTMLElement_Compare_element, i0, i1]; simp
  · rw [HTMLElement_Compare_element, i0, i1]; simp
  · rw [g0, g1]; decide

/-- With the attribute cache filled, `GetAttributes` returns the cached object and leaves the
store as it is, whatever the selection and the list of attribute names. -/
theorem GetAttributes_cached (attributes : List String) (σ : Store) (r obj : ℕ)
    (h : (σ.elements r).attrs = some obj) :
    HTMLElement.GetAttributes attributes σ r = (.Object obj, σ) := by
  simp [HTMLElement.GetAttributes, h]

/-- With the child cache filled, `GetChildNodes` returns the cached array and leaves the store
as it is, whatever the selection. -/
theorem GetChildNodes_cached (σ : Store) (r arr : ℕ)
    (h : (σ.elements r).children = some arr) :
    HTMLElement.GetChildNodes σ r = some (.Array arr, σ) := by
  simp [HTMLElement.GetChildNodes, h]

/-- With the child cache filled, `Length` is the length of the cached array and leaves the
store as it is. -/
theorem Length_cached (σ : Store) (r arr : ℕ)
    (h : (σ.elements r).children = some arr) :
    HTMLElement.Length σ r = some (((σ.arrays arr).length : ℤ), σ) := by
  simp [HTMLElement.Length, h]

/-- C17: a call of `GetAttributes` returns an Object `obj` and leaves it in the cache of the
instance; from any later state in which that cache field is untouched (the selection,
the attributes below it and the rest of the store may have changed) `GetAttributes` returns
the same `obj` and changes nothing.  Likewise `GetChildNodes` with its Array `arr`.  `Length`
on the same state fills the cache exactly as `GetChildNodes` does and returns the length of
that Array, and later it returns the length of the cached Array, the one `GetChildNodes`
returns. -/
theorem HTMLElement_caching (attributes : List String) (σ : Store) (r : ℕ) :
    (∃ obj : ℕ,
      (HTMLElement.GetAttributes attributes σ r).1 = .Object obj ∧
      (((HTMLElement.GetAttributes attributes σ r).2).elements r).attrs = some obj ∧
      ∀ (σ2 : Store) (attributes2 : List String),
        (σ2.elements r).attrs =
          (((HTMLElement.GetAttributes attributes σ r).2).elements r).attrs →
        HTMLElement.GetAttributes attributes2 σ2 r = (.Object obj, σ2)) ∧
    (∃ (arr : ℕ) (σ1 : Store),
      HTMLElement.GetChildNodes σ r = some (.Array arr, σ1) ∧
      (σ1.elements r).children = some arr ∧
      HTMLElement.Length σ r = some (((σ1.arrays arr).length : ℤ), σ1) ∧
      ∀ σ2 : Store, (σ2.elements r).children = (σ1.elements r).children →
        HTMLElement.GetChildNodes σ2 r = some (.Array arr, σ2) ∧
        HTMLElement.Length σ2 r = some (((σ2.arrays arr).length : ℤ), σ2)) := by
  constructor
  · cases h : (σ.elements r).attrs with
    | some obj =>
      rw [GetAttributes_cached attributes σ r obj h]
      exact ⟨obj, rfl, h, fun σ2 a2 h2 => GetAttributes_cached a2 σ2 r obj (h2.trans h)⟩
    | none =>
      have hg : HTMLElement.GetAttributes attributes σ r =
          (.Object (HTMLElement.parseAttrs attributes σ (σ.elements r)).1,
            HTMLElement.setAttrs (HTMLElement.parseAttrs attributes σ (σ.elements r)).2 r
              (HTMLElement.parseAttrs attributes σ (σ.elements r)).1) := by
        simp [HTMLElement.GetAttributes, h]
      have hc : ((HTMLElement.setAttrs (HTMLElement.parseAttrs attributes σ (σ.elements r)).2 r
          (HTMLElement.parseAttrs attributes σ (σ.elements r)).1).elements r).attrs =
          some (HTMLElement.parseAttrs attributes σ (σ.elements r)).1 := by
        simp [HTMLElement.setAttrs]
      rw [hg]
      exact ⟨_, rfl, hc, fun σ2 a2 h2 => GetAttributes_cached a2 σ2 r _ (h2.trans hc)⟩
  · cases h : (σ.elements r).children with
    | some arr =>
      exact ⟨arr, σ, GetChildNodes_cached σ r arr h, h, Length_cached σ r arr h,
        fun σ2 h2 => ⟨GetChildNodes_cached σ2 r arr (h2.trans h),
          Length_cached σ2 r arr (h2.trans h)⟩⟩
    | none =>
      obtain ⟨arr, σ0, hp⟩ : ∃ arr σ0,
          HTMLElement.parseChildren σ (σ.elements r) = some (arr, σ0) :=
        ⟨_, _, rfl⟩
      have hc : ((HTMLElement.setChildren σ0 r arr).elements r).children = some arr := by
        simp [HTMLElement.setChildren]
      refine ⟨arr, HTMLElement.setChildren σ0 r arr, ?_, hc, ?_, ?_⟩
      · simp [HTMLElement.GetChildNodes, h, hp]
      · simp [HTMLElement.Length, h, hp]
      · intro σ2 h2
        exact ⟨GetChildNodes_cached σ2 r arr (h2.trans hc),
          Length_cached σ2 r arr (h2.trans hc)⟩

end ElementProperties

section InnerTextAllProperties

/-- C13: `InnerTextAll` fails exactly when the number of arguments is not 2, or the first
argument is not of the document or node kind, or the second is not of the String kind; it
then returns the None value with a validation error (argument count or type) and changes
nothing.  Otherwise it returns, with no error, the Array that `InnerTextBySelectorAll` of the
first argument returns for the selector.  Kinds are taken to be honest: a value of the
document or node kind is a node, a value of the String kind is a String. -/
theorem InnerTextAll_spec (L : HtmlLib) (N : OtherNodes) (HTMLNodeType : CoreType)
    (σ : Store) (args : List Value)
    (hnode : ∀ arg0, args[0]? = some arg0 →
      arg0.Type σ ∈ [drivers.HTMLDocumentType, HTMLNodeType] →
      ∃ r, arg0 = .HTMLElement r ∨ arg0 = .HTMLDocument r ∨ arg0 = .DHTMLDocument r ∨
        arg0 = .DHTMLNode r)
    (hstr : ∀ arg1, args[1]? = some arg1 → arg1.Type σ = types.String →
      ∃ s, arg1 = .String s) :
    ∃ res, html.InnerTextAll L N HTMLNodeType σ args = some res ∧
      (res.1.2 ≠ none ↔
        (args.length ≠ 2 ∨
          (∃ arg0, args[0]? = some arg0 ∧
            arg0.Type σ ∉ [drivers.HTMLDocumentType, HTMLNodeType]) ∨
          (∃ arg1, args[1]? = some arg1 ∧ arg1.Type σ ≠ types.String))) ∧
      (res.1.2 ≠ none →
        res.1.1 = .None ∧ res.2 = σ ∧
          (res.1.2 = some .ErrInvalidArgumentNumber ∨ res.1.2 = some .ErrInvalidType)) ∧
      (res.1.2 = none →
        ∃ arg0 selector arr σ1, args = [arg0, .String selector] ∧
          html.nodeInnerTextBySelectorAll L N σ arg0 selector = some (arr, σ1) ∧
          res = ((.Array arr, none), σ1)) := by
  unfold html.InnerTextAll core.ValidateArgs
  by_cases hlen : args.length = 2
  · have hv : ¬ (args.length < 2 ∨ args.length > 2) := by omega
    rw [if_neg hv]
    obtain ⟨arg0, arg1, rfl⟩ : ∃ a b, args = [a, b] := by
      match args, hlen with
      | [a, b], _ => exact ⟨a, b, rfl⟩
    have h0 : ([arg0, arg1] : List Value)[0]? = some arg0 := rfl
    have h1 : ([arg0, arg1] : List Value)[1]? = some arg1 := rfl
    simp only [h0, h1, core.ValidateType]
    by_cases ht0 : arg0.Type σ ∈ [drivers.HTMLDocumentType, HTMLNodeType]
    · by_cases ht1 : arg1.Type σ = types.String
      · obtain ⟨s, rfl⟩ := hstr arg1 h1 ht1
        obtain ⟨r, hr⟩ := hnode arg0 h0 ht0
        have hsome : ∃ arr σ1,
            html.nodeInnerTextBySelectorAll L N σ arg0 s = some (arr, σ1) := by
          rcases hr with rfl | rfl | rfl | rfl
          · exact ⟨_, _, rfl⟩
          · exact ⟨_, _, rfl⟩
          · exact ⟨_, _, rfl⟩
          · exact ⟨_, _, rfl⟩
        obtain ⟨arr, σ1, hcall⟩ := hsome
        refine ⟨((.Array arr, none), σ1), ?_, ?_, ?_, ?_⟩
        · simp only [List.mem_cons, List.mem_singleton, List.not_mem_nil, or_false] at ht0
          simp [ht0, ht1, assertString, hcall]
        · constructor
          · intro h; exact absurd rfl h
          · rintro (h | ⟨a, ha, hn⟩ | ⟨a, ha, hn⟩)
            · exact absurd hlen h
            · cases ha; exact absurd ht0 hn
            · cases ha; exact absurd ht1 hn
        · intro h; exact absurd rfl h
        · intro _; exact ⟨arg0, s, arr, σ1, rfl, hcall, rfl⟩
      · refine ⟨((.None, some .ErrInvalidType), σ), ?_, ?_, ?_, ?_⟩
        · simp only [List.mem_cons, List.mem_singleton, List.not_mem_nil, or_false] at ht0
          simp [ht0, ht1]
        · constructor
          · intro _; exact Or.inr (Or.inr ⟨arg1, rfl, ht1⟩)
          · intro _ h; cases h
        · intro _; exact ⟨rfl, rfl, Or.inr rfl⟩
        · intro h; cases h
    · refine ⟨((.None, some .ErrInvalidType), σ), ?_, ?_, ?_, ?_⟩
      · simp only [List.mem_cons, List.mem_singleton, List.not_mem_nil, or_false] at ht0
        simp [ht0]
      · constructor
        · intro _; exact Or.inr (Or.inl ⟨arg0, rfl, ht0⟩)
        · intro _ h; cases h
      · intro _; exact ⟨rfl, rfl, Or.inr rfl⟩
      · intro h; cases h
  · have hv : args.length < 2 ∨ args.length > 2 := by omega
    rw [if_pos hv]
    refine ⟨((.None, some .ErrInvalidArgumentNumber), σ), rfl, ?_, ?_, ?_⟩
    · constructor
      · intro _; exact Or.inl hlen
      · intro _ h; cases h
    · intro _; exact ⟨rfl, rfl, Or.inl rfl⟩
    · intro h; cases h

/-- Witness for C13: the element of the sample markup and the selector "p", the node kind
being the kind of elements; the result is the array `["Hi", "Yo"]`. -/
theorem InnerTextAll_spec_witness :
    ∃ res, html.InnerTextAll sampleLib sampleOtherNodes drivers.HTMLElementType nodeStore
        [.HTMLElement 0, .String "p"] = some res ∧
      res.1.2 = none ∧
      ∃ arr, res.1.1 = .Array arr ∧ res.2.arrays arr = [.String "Hi", .String "Yo"] := by
  obtain ⟨res, h, hiff, -, hok⟩ :=
    InnerTextAll_spec sampleLib sampleOtherNodes drivers.HTMLElementType nodeStore
      [.HTMLElement 0, .String "p"]
      (fun arg0 h0 _ => ⟨0, Or.inl (by cases h0; rfl)⟩)
      (fun arg1 h1 _ => ⟨"p", by cases h1; rfl⟩)
  have hnone : res.1.2 = none := by
    by_contra hne
    rcases hiff.mp hne with h1 | ⟨a, ha, hn⟩ | ⟨a, ha, hn⟩
    · exact h1 rfl
    · cases ha; exact hn (by decide)
    · cases ha; exact hn rfl
  obtain ⟨arg0, selector, arr, σ1, hargs, hcall, hres⟩ := hok hnone
  cases hargs
  have hc : html.nodeInnerTextBySelectorAll sampleLib sampleOtherNodes nodeStore
      (.HTMLElement 0) "p" =
      some (nodeStore.newArray.1, eachInnerText nodeStore.newArray.1 nodeStore.newArray.2
        (findWithMatcher [sampleDiv] (sampleLib.matcher "p"))) := rfl
  rw [hc] at hcall
  cases hcall
  refine ⟨res, h, hnone, nodeStore.newArray.1, by rw [hres], ?_⟩
  rw [hres]
  simp only [eachInnerText_arrays, Store.newArray_arrays]
  rfl

end InnerTextAllProperties

section MaxNonNumbers

/-- When the array holds an element that is neither Int nor Float, the loop of `Max` stops
with the validation error of the first such element. -/
theorem maxForEach_stops (σ : Store) :
    ∀ (items : List Value) (max : ℚ),
      (∀ v ∈ items, v.Type σ ∈ [types.Float, types.Int] → (math.toFloat v).isSome = true) →
      (∃ v ∈ items, v.Type σ ∉ [types.Float, types.Int]) →
      ∃ m e, math.maxForEach σ items max = some (m, some e)
  | [], _, _, hbad => by
    obtain ⟨v, hv, _⟩ := hbad
    cases hv
  | value :: rest, max, hnum, hbad => by
    rw [math.maxForEach]
    by_cases hv : value.Type σ ∈ [types.Float, types.Int]
    · have hsome := hnum value (List.mem_cons_self _ _) hv
      obtain ⟨fv, hfv⟩ := Option.isSome_iff_exists.mp hsome
      have hrest : ∃ v ∈ rest, v.Type σ ∉ [types.Float, types.Int] := by
        obtain ⟨v, hmem, hvb⟩ := hbad
        rcases List.mem_cons.mp hmem with rfl | hmem
        · exact absurd hv hvb
        · exact ⟨v, hmem, hvb⟩
      obtain ⟨m, e, hme⟩ := maxForEach_stops σ rest (if fv > max then fv else max)
        (fun v hmem => hnum v (List.mem_cons_of_mem _ hmem)) hrest
      exact ⟨m, e, by simp only [core.ValidateType, if_pos hv, hfv]; exact hme⟩
    · exact ⟨max, .ErrInvalidType, by simp only [core.ValidateType, if_neg hv]⟩

/-- C19: for an array argument that is empty, or that holds at least one element that is
neither Int nor Float, `Max` returns the None value with no error: the validation error of
the element stops the scan and is not returned.  Kinds are taken to be honest: an element of
the Int or Float kind holds a number. -/
theorem Max_non_number (σ : Store) (a : ℕ)
    (hnum : ∀ v ∈ σ.arrays a, v.Type σ ∈ [types.Float, types.Int] →
      (math.toFloat v).isSome = true)
    (hbad : σ.arrays a = [] ∨ ∃ v ∈ σ.arrays a, v.Type σ ∉ [types.Float, types.Int]) :
    math.Max σ [.Array a] = some (.None, none) := by
  have hargs : core.ValidateArgs [Value.Array a] 1 1 = none := rfl
  have harg0 : ([Value.Array a] : List Value)[0]? = some (.Array a) := rfl
  have hty : core.ValidateType σ (.Array a) [types.Array] = none := by
    simp [core.ValidateType, Value.Type]
  unfold math.Max
  simp only [hargs, harg0, hty, assertArray]
  rcases hbad with hempty | hbad
  · simp [hempty]
  · obtain ⟨m, e, hme⟩ := maxForEach_stops σ (σ.arrays a) 0 hnum hbad
    obtain ⟨v, hv, -⟩ := hbad
    have hne : (σ.arrays a).length ≠ 0 := by
      intro h0
      rw [List.length_eq_zero.mp h0] at hv
      cases hv
    rw [if_neg hne, hme]

/-- Witness for C19: the array `[1, "x", 3]`. -/
theorem Max_non_number_witness :
    nodeStore.arrays 0 = [.Int 1, .String "x", .Int 3] ∧
    math.Max nodeStore [.Array 0] = some (.None, none) := by
  have harr : nodeStore.arrays 0 = [.Int 1, .String "x", .Int 3] := rfl
  refine ⟨harr, Max_non_number nodeStore 0 ?_ (Or.inr ⟨.String "x", ?_, ?_⟩)⟩
  · intro v hv _
    rw [harr] at hv
    simp only [List.mem_cons, List.mem_singleton, List.not_mem_nil, or_false] at hv
    rcases hv with rfl | rfl | rfl
    · rfl
    · rename_i h; revert h; decide
    · rfl
  · rw [harr]; simp
  · decide

end MaxNonNumbers

section BooleanRendering

/-- C20: for every Boolean `b`, `ParseBoolean(b.String())` and `ParseBoolean(b.Unwrap())`
succeed and return `b`; `b.String()` is "true" for `True` and "false" for `False`; `b.Copy()`
is `b` again, and compares equal to it.  This holds for any Unicode case tables `tbl`. -/
theorem ParseBoolean_String_round_trip (tbl : Char → Char) (σ : Store) (b : values.Boolean) :
    values.ParseBoolean tbl (.string (values.Boolean.String b)) = (b, none) ∧
    values.ParseBoolean tbl (values.Boolean.Unwrap b) = (b, none) ∧
    values.Boolean.String values.True = "true" ∧
    values.Boolean.String values.False = "false" ∧
    values.Boolean.Copy b = .Boolean b ∧
    values.Boolean.Compare σ b (values.Boolean.Copy b) = some 0 := by
  have ht : values.stringsToLower tbl "true" = "true" := by rfl
  have hf : values.stringsToLower tbl "false" = "false" := by rfl
  refine ⟨?_, ?_, rfl, rfl, rfl, ?_⟩
  · cases b
    · have hs : values.Boolean.String false = "false" := rfl
      rw [hs, values.ParseBoolean]
      simp [hf, values.False]
    · have hs : values.Boolean.String true = "true" := rfl
      rw [hs, values.ParseBoolean]
      simp [ht, values.True]
  · cases b <;> simp [values.Boolean.Unwrap, values.ParseBoolean, values.True, values.False]
  · rw [values.Boolean.Copy, Boolean_Compare_boolean]; simp

end BooleanRendering

end Ferret
